import Mathlib

/-!
Verification of the rotation, alignment, windowing and label-scoping logic of
the sensor_position_dataset_helper package.

The pandas data model is embedded shallowly:

* a multi-sensor table (a DataFrame with a two-level column MultiIndex) is a
  structure holding the ordered list of (sensor, channel) column pairs, a row
  count, and a total valuation function from row number and column to a
  rational value;
* scipy rotations are 3 by 3 rational matrices acting on column 3-vectors;
* fallible pandas operations (KeyError on a missing sensor or channel) are
  modelled with Option;
* timestamps and sample values are rationals, exactly as the spec treats the
  arithmetic (floating point rounding is outside the model).

Functions keep the names of the Python source where Lean allows it.
-/

/-- Column label of a multi-sensor table: (sensor name, channel name). -/
abbrev Col := String × String

/-- Shallow embedding of a pandas DataFrame with a two-level column index.
The valuation is total; only the values at columns listed in cols are
meaningful. -/
structure DataFrame where
  cols : List Col
  nrows : Nat
  val : Nat → Col → ℚ

/-- Embedding of a 3-vector of channel values. -/
structure Vec3 where
  x : ℚ
  y : ℚ
  z : ℚ
deriving DecidableEq

/-- Embedding of a 3 by 3 rotation matrix, row major. -/
structure Mat3 where
  m00 : ℚ
  m01 : ℚ
  m02 : ℚ
  m10 : ℚ
  m11 : ℚ
  m12 : ℚ
  m20 : ℚ
  m21 : ℚ
  m22 : ℚ
deriving DecidableEq

/-- Standard vector rotation, new_vector = R dot old_vector, which is what
scipy Rotation.apply does for a rotation built with Rotation.from_matrix. -/
def Mat3.apply (M : Mat3) (v : Vec3) : Vec3 :=
  ⟨M.m00 * v.x + M.m01 * v.y + M.m02 * v.z,
   M.m10 * v.x + M.m11 * v.y + M.m12 * v.z,
   M.m20 * v.x + M.m21 * v.y + M.m22 * v.z⟩

/-- Source internal_helpers.SF_ACC. -/
def SF_ACC : List String := ["acc_x", "acc_y", "acc_z"]

/-- Source internal_helpers.SF_GYR. -/
def SF_GYR : List String := ["gyr_x", "gyr_y", "gyr_z"]

/-- Source internal_helpers.SF_COLS. -/
def SF_COLS : List String := SF_ACC ++ SF_GYR

/-- Channel labels of one sensor group, in column order, as selected by
dataset[key] on the second level of the column MultiIndex. -/
def sensorChannels (df : DataFrame) (k : String) : List String :=
  (df.cols.filter (fun c => decide (c.1 = k))).map Prod.snd

/-- Check that a sensor group is present in the table (pandas raises KeyError
otherwise). -/
def hasSensor (df : DataFrame) (k : String) : Bool :=
  df.cols.any (fun c => decide (c.1 = k))

/-- Check that a sensor group carries all six acc/gyr channels; reading
data[SF_GYR] or data[SF_ACC] in _rotate_sensor raises KeyError otherwise. -/
def hasSFCols (df : DataFrame) (k : String) : Bool :=
  SF_COLS.all (fun ch => decide ((k, ch) ∈ df.cols))

/-- Source internal_helpers._rotate_sensor, per row: the gyr triple and the acc
triple are replaced by their image under the rotation, all other channels of
the sensor keep their values. The argument v is the valuation of one row of
the single-sensor sub-frame. -/
def rotateSensorVals (M : Mat3) (v : String → ℚ) (ch : String) : ℚ :=
  let gyr := M.apply ⟨v "gyr_x", v "gyr_y", v "gyr_z"⟩
  let acc := M.apply ⟨v "acc_x", v "acc_y", v "acc_z"⟩
  if ch = "gyr_x" then gyr.x
  else if ch = "gyr_y" then gyr.y
  else if ch = "gyr_z" then gyr.z
  else if ch = "acc_x" then acc.x
  else if ch = "acc_y" then acc.y
  else if ch = "acc_z" then acc.z
  else v ch

/-- Value written back by rotated_dataset[key] = _rotate_sensor(dataset[key], r)
at channel c.2 of sensor k: for rotation None the original values, otherwise
the rotated values. Reads always come from the original dataset. -/
def mappedVal (orig : DataFrame) (k : String) (r : Option Mat3) (i : Nat) (c : Col) : ℚ :=
  match r with
  | none => orig.val i (k, c.2)
  | some M => rotateSensorVals M (fun ch => orig.val i (k, ch)) c.2

/-- Embedding of the column assignment rotated_dataset[key] = test: the values
of every channel of sensor k are overwritten with newv, all other columns keep
the values of the running copy. The column list is unchanged because all
assigned columns already exist. -/
def assignSensor (orig cur : DataFrame) (k : String) (newv : Nat → String → ℚ) : DataFrame :=
  { cols := cur.cols
    nrows := cur.nrows
    val := fun i c =>
      if c.1 = k ∧ c.2 ∈ sensorChannels orig k then newv i c.2 else cur.val i c }

/-- One iteration of the loop in internal_helpers.rotate_dataset: sub-select
sensor k from the original dataset, rotate it with _rotate_sensor, and assign
the result back over the running copy. none models the KeyError cases. -/
def applyKey (orig : DataFrame) (k : String) (r : Option Mat3) (cur : DataFrame) :
    Option DataFrame :=
  if hasSensor orig k = true then
    match r with
    | none => some (assignSensor orig cur k (fun i ch => orig.val i (k, ch)))
    | some M =>
      if hasSFCols orig k = true then
        some (assignSensor orig cur k
          (fun i ch => rotateSensorVals M (fun ch2 => orig.val i (k, ch2)) ch))
      else none
  else none

/-- Loop of internal_helpers.rotate_dataset over the keys of the rotation
mapping, in insertion order. -/
def rotate_loop (orig : DataFrame) : DataFrame → List (String × Option Mat3) → Option DataFrame
  | cur, [] => some cur
  | cur, kr :: rest =>
    match applyKey orig kr.1 kr.2 cur with
    | none => none
    | some cur2 => rotate_loop orig cur2 rest

/-- Source internal_helpers.rotate_dataset with a dictionary of rotations,
the mapping given as an association list in dict insertion order. The final
reselection rotated_dataset[original_cols] is the identity here because
column assignment never reorders existing columns. -/
def rotate_dataset (df : DataFrame) (rmap : List (String × Option Mat3)) : Option DataFrame :=
  rotate_loop df df rmap

/-- Helper for uniqueKeys, accumulating first occurrences left to right. -/
def uniqueKeysAux : List String → List String → List String
  | acc, [] => acc
  | acc, a :: l => uniqueKeysAux (if a ∈ acc then acc else acc ++ [a]) l

/-- Embedding of dataset.columns.unique(level=0): sensor names in order of
first occurrence. -/
def uniqueKeys (l : List String) : List String := uniqueKeysAux [] l

/-- Source internal_helpers.rotate_dataset with one Rotation object: the same
rotation is applied to every sensor group of the dataset. -/
def rotate_dataset_single (df : DataFrame) (M : Mat3) : Option DataFrame :=
  rotate_dataset df ((uniqueKeys (df.cols.map Prod.fst)).map (fun k => (k, some M)))

/-- Static rotation table internal_helpers.COORDINATE_TRANSFORMATION_DICT,
returning the pair (left_sensor matrix, right_sensor matrix) for a known key. -/
def COORDINATE_TRANSFORMATION_DICT (key : String) : Option (Mat3 × Mat3) :=
  if key = "qualisis_lateral_nilspodv1" then
    some (⟨0, 1, 0, 0, 0, 1, 1, 0, 0⟩, ⟨0, -1, 0, 0, 0, -1, 1, 0, 0⟩)
  else if key = "qualisis_medial_nilspodv1" then
    some (⟨0, -1, 0, 0, 0, -1, 1, 0, 0⟩, ⟨0, 1, 0, 0, 0, 1, 1, 0, 0⟩)
  else if key = "qualisis_instep_nilspodv1" then
    some (⟨-1, 0, 0, 0, -1, 0, 0, 0, 1⟩, ⟨-1, 0, 0, 0, -1, 0, 0, 0, 1⟩)
  else if key = "qualisis_cavity_nilspodv1" then
    some (⟨-1, 0, 0, 0, -1, 0, 0, 0, 1⟩, ⟨-1, 0, 0, 0, -1, 0, 0, 0, 1⟩)
  else if key = "qualisis_heel_nilspodv1" then
    some (⟨0, 0, -1, 0, 1, 0, 1, 0, 0⟩, ⟨0, 0, -1, 0, 1, 0, 1, 0, 0⟩)
  else if key = "qualisis_insole_nilspodv1" then
    some (⟨0, 1, 0, -1, 0, 0, 0, 0, 1⟩, ⟨0, -1, 0, 1, 0, 0, 0, 0, 1⟩)
  else none

/-- Split a character list at every occurrence of the separator, the embedding
of the Python str.split method with a one-character separator. -/
def splitOnChar (c : Char) : List Char → List (List Char)
  | [] => [[]]
  | a :: rest =>
    if a = c then [] :: splitOnChar c rest
    else
      match splitOnChar c rest with
      | [] => [[a]]
      | g :: gs => (a :: g) :: gs

/-- Embedding of the Python expression s.split(sep) for a single character
separator. -/
def pySplit (s : String) (c : Char) : List String :=
  (splitOnChar c s.toList).map (fun g => String.mk g)

/-- Rotation selection loop of helper.align_coordinates: for every sensor name
of the table (in first-occurrence order), skip it when the name has no
underscore, split it into foot and position, skip it when
qualisis_{position}_nilspodv1 has no entry in the static table, otherwise pick
the right_sensor matrix for foot r and the left_sensor matrix for foot l.
none models the uncaught Python exceptions (unpacking a split with more than
two parts, or a foot code outside r and l with a known position). -/
def alignRotations : List String → Option (List (String × Option Mat3))
  | [] => some []
  | s :: rest =>
    if s.toList.contains '_' = false then alignRotations rest
    else
      match pySplit s '_' with
      | [foot, pos] =>
        match COORDINATE_TRANSFORMATION_DICT ("qualisis_" ++ pos ++ "_nilspodv1") with
        | none => alignRotations rest
        | some mats =>
          if foot = "r" then (alignRotations rest).map (fun l => (s, some mats.2) :: l)
          else if foot = "l" then (alignRotations rest).map (fun l => (s, some mats.1) :: l)
          else none
      | _ => none

/-- Embedding of multi_sensor_data.drop(columns=key): remove all columns of
one sensor group; the valuation is untouched. -/
def dropSensor (df : DataFrame) (k : String) : DataFrame :=
  { cols := df.cols.filter (fun c => decide (c.1 ≠ k))
    nrows := df.nrows
    val := df.val }

/-- Embedding of ds[sync] = multi_sensor_data[sync] where ds has no sync
columns: the sync columns of the original table are appended at the end, with
their original values. -/
def reattachSync (orig ds : DataFrame) : DataFrame :=
  { cols := ds.cols ++ orig.cols.filter (fun c => decide (c.1 = "sync"))
    nrows := ds.nrows
    val := fun i c => if c.1 = "sync" then orig.val i c else ds.val i c }

/-- Source helper.align_coordinates: build the per-sensor rotation mapping,
rotate the table with the sync group dropped, then re-attach the original sync
group. -/
def align_coordinates (df : DataFrame) : Option DataFrame :=
  if hasSensor df "sync" = true then
    match alignRotations (uniqueKeys (df.cols.map Prod.fst)) with
    | none => none
    | some rots =>
      match rotate_dataset (dropSensor df "sync") rots with
      | none => none
      | some ds => some (reattachSync df ds)
  else none

/-- Decidable success condition of align_coordinates: the table has a sync
group, the rotation selection raises no exception, and every selected sensor is
present with all six acc/gyr channels after the sync group is dropped. -/
def alignOK (df : DataFrame) : Bool :=
  hasSensor df "sync" &&
    match alignRotations (uniqueKeys (df.cols.map Prod.fst)) with
    | none => false
    | some rots =>
      rots.all (fun kr =>
        hasSensor (dropSensor df "sync") kr.1 &&
          match kr.2 with
          | none => true
          | some _ => hasSFCols (dropSensor df "sync") kr.1)

/-- Modelled from the spec: rotation_from_angle(pi, [0, 0, 1]) of
helper.get_session_df is imported from a module that is not part of the
sources; the spec describes it as the 180 degree rotation about the vertical
axis, whose matrix is diag(-1, -1, 1). -/
def rotation_from_angle_180_z : Mat3 := ⟨-1, 0, 0, 0, -1, 0, 0, 0, 1⟩

/-- Subjects whose l_cavity sensor was mounted upside down
(helper.get_session_df). -/
def CAVITY_FIX_SUBJECTS : List String := ["8d60", "cb3d", "cdfc"]

/-- Subjects whose l_medial sensor was mounted upside down
(helper.get_session_df). -/
def MEDIAL_FIX_SUBJECTS : List String := ["4d91", "5237", "80b8", "c9bb"]

/-- Mounting fixup step of helper.get_session_df, applied to the merged
session table after the sync trigger column has been split off and before the
table is handed to the caller (and hence before any later coordinate
alignment): subjects in the first allow-list get a 180 degree vertical-axis
rotation of the l_cavity sensor, subjects in the second allow-list get the
same rotation of the l_medial sensor, all other subjects pass through. -/
def get_session_df_fixup (subject_id : String) (df : DataFrame) : Option DataFrame :=
  (if subject_id ∈ CAVITY_FIX_SUBJECTS then
      rotate_dataset df [("l_cavity", some rotation_from_angle_180_z)]
    else some df).bind
    (fun d =>
      if subject_id ∈ MEDIAL_FIX_SUBJECTS then
        rotate_dataset d [("l_medial", some rotation_from_angle_180_z)]
      else some d)

/-- IMU sampling rate of the dataset, 204.8 Hz
(SensorPositionDatasetMocap.sampling_rate_hz). -/
def SAMPLING_RATE : ℚ := 1024 / 5

/-- Embedding of session_df.loc[a:b] on a monotone time index: pandas label
slicing keeps the rows whose index lies in the closed interval [a, b]. Rows
are (timestamp, payload) pairs. -/
def locSlice {α : Type} (a b : ℚ) (l : List (ℚ × α)) : List (ℚ × α) :=
  l.filter (fun r => decide (a ≤ r.1) && decide (r.1 ≤ b))

/-- Source helper.get_imu_test: pad the test boundaries taken from the
metadata by padding_s seconds on both sides and slice the session table to the
padded closed interval. The timestamps stay absolute. -/
def get_imu_test {α : Type} (test_start test_stop padding_s : ℚ)
    (session_df : List (ℚ × α)) : List (ℚ × α) :=
  locSlice (test_start - padding_s) (test_stop + padding_s) session_df

/-- Re-indexing of SensorPositionDatasetMocap.data: after reset_index
(drop=True) row j carries index j, divided by the sampling rate and shifted by
the padding, giving the time in seconds relative to the unpadded test start. -/
def mocapDataTimeIndex (padding_s : ℚ) (j : Nat) : ℚ :=
  (j : ℚ) / SAMPLING_RATE - padding_s

/-- Full data property of SensorPositionDatasetMocap: the padded window of the
session with the re-computed time index. -/
def mocap_data_table {α : Type} (test_start test_stop padding_s : ℚ)
    (session_df : List (ℚ × α)) : List (ℚ × α) :=
  (get_imu_test test_start test_stop padding_s session_df).enum.map
    (fun jr => (mocapDataTimeIndex padding_s jr.1, jr.2.2))

/-- Uniformly sampled session: N rows at the IMU sampling rate starting at
absolute time t0. The payload is irrelevant for the windowing claims. -/
def uniformSession (t0 : ℚ) (N : Nat) : List (ℚ × Unit) :=
  (List.range N).map (fun k : Nat => (t0 + (k : ℚ) / SAMPLING_RATE, ()))

/-- Position, within a window of (timestamp, payload) rows, of the first row
of the unpadded test, that is of the first row whose absolute timestamp is at
or after the unpadded test start. -/
def firstUnpaddedPos {α : Type} (test_start : ℚ) (w : List (ℚ × α)) : Nat :=
  w.findIdx (fun r => decide (test_start ≤ r.1))

/-- Manually labelled stride borders: one row of the per-subject CSV, with
start and end in full-session sample indices. -/
structure StrideLabel where
  s_id : Nat
  start : Int
  end_ : Int
  foot : String
deriving DecidableEq

/-- Source helper.get_manual_labels_for_test: keep the labels whose start is
at or after the test start index and whose end is at or before the test stop
index, then subtract the test start index from both boundaries. -/
def get_manual_labels_for_test (test_start test_stop : Int)
    (labels : List StrideLabel) : List StrideLabel :=
  (labels.filter (fun l => decide (test_start ≤ l.start) && decide (l.end_ ≤ test_stop))).map
    (fun l => { l with start := l.start - test_start, end_ := l.end_ - test_start })

/-- Embedding of the Python int() conversion on a rational: truncation toward
zero. -/
def pyInt (q : ℚ) : Int :=
  if 0 ≤ q then ⌊q⌋ else ⌈q⌉

/-- Source SensorPositionDatasetMocap._get_segmented_stride_list: the labels
scoped to the test, with int(data_padding_s * sampling_rate_hz) added to both
boundaries. -/
def mocap_rebased_labels (test_start test_stop data_padding_s : Int)
    (labels : List StrideLabel) : List StrideLabel :=
  (get_manual_labels_for_test test_start test_stop labels).map
    (fun l =>
      { l with
        start := l.start + pyInt ((data_padding_s : ℚ) * SAMPLING_RATE)
        end_ := l.end_ + pyInt ((data_padding_s : ℚ) * SAMPLING_RATE) })

/-- Modelled from the spec: Dataset.is_single of the gaitmap base class is not
part of the sources; the spec requires the current selection to narrow to
exactly one row before any data-producing property may be evaluated. -/
def is_single {ι : Type} (index : List ι) : Bool :=
  index.length == 1

/-- Data property of SensorPositionDatasetSegmentation: guard on a single
selected row, then load the session of the selected participant and align its
coordinates. Session loading itself is file I/O and is supplied as the
environment function session_df_of. -/
def SensorPositionDatasetSegmentation_data (index : List String)
    (session_df_of : String → DataFrame) : Except String DataFrame :=
  if is_single index = true then
    match align_coordinates (session_df_of (index.getD 0 "")) with
    | some out => Except.ok out
    | none => Except.error "alignment failed"
  else Except.error "Can only get data for a single participant"

/-- Data property of SensorPositionDatasetMocap: guard on a single selected
(participant, test) row, then window the (optionally pre-aligned) session to
the padded test and re-index it. The loaded session and the metadata test
boundaries are supplied as environment functions. -/
def SensorPositionDatasetMocap_data {α : Type} (index : List (String × String))
    (session_df_of : String → List (ℚ × α)) (test_bounds : String → String → ℚ × ℚ)
    (data_padding_s : ℚ) : Except String (List (ℚ × α)) :=
  if is_single index = true then
    Except.ok
      (mocap_data_table (test_bounds (index.getD 0 ("", "")).1 (index.getD 0 ("", "")).2).1
        (test_bounds (index.getD 0 ("", "")).1 (index.getD 0 ("", "")).2).2
        data_padding_s (session_df_of (index.getD 0 ("", "")).1))
  else Except.error "Can only get data for a single participant"

/-- Property segmented_stride_list_ of the dataset base class, with the mocap
variant of _get_segmented_stride_list: guard on a single selected row, then
scope the manual labels of the participant to the test and re-base them. -/
def segmented_stride_list_mocap (index : List (String × String))
    (labels_of : String → List StrideLabel) (bounds_idx : String → String → Int × Int)
    (data_padding_s : Int) : Except String (List StrideLabel) :=
  if is_single index = true then
    Except.ok
      (mocap_rebased_labels (bounds_idx (index.getD 0 ("", "")).1 (index.getD 0 ("", "")).2).1
        (bounds_idx (index.getD 0 ("", "")).1 (index.getD 0 ("", "")).2).2
        data_padding_s (labels_of (index.getD 0 ("", "")).1))
  else Except.error "Can only get stride lists single participant"

/-- Property mocap_events_ of SensorPositionDatasetMocap: guard on a single
selected row, then read the per-test event table (file I/O, supplied as an
environment function). -/
def mocap_events_prop {α : Type} (index : List (String × String))
    (events_of : String → String → α) : Except String α :=
  if is_single index = true then
    Except.ok (events_of (index.getD 0 ("", "")).1 (index.getD 0 ("", "")).2)
  else Except.error "Can only get stride lists single participant"

/-- Property marker_position_ of SensorPositionDatasetMocap: guard on a single
selected row, then read and re-index the per-test marker table (file I/O,
supplied as an environment function). -/
def marker_position_prop {α : Type} (index : List (String × String))
    (mocap_of : String → String → List α) : Except String (List (ℚ × α)) :=
  if is_single index = true then
    Except.ok
      ((mocap_of (index.getD 0 ("", "")).1 (index.getD 0 ("", "")).2).enum.map
        (fun jr => ((jr.1 : ℚ) / 100, jr.2)))
  else Except.error "Can only get position for lists single participant"

/-- Accelerometer 3-vector of sensor k in row i. -/
def accVec (df : DataFrame) (i : Nat) (k : String) : Vec3 :=
  ⟨df.val i (k, "acc_x"), df.val i (k, "acc_y"), df.val i (k, "acc_z")⟩

/-- Gyroscope 3-vector of sensor k in row i. -/
def gyrVec (df : DataFrame) (i : Nat) (k : String) : Vec3 :=
  ⟨df.val i (k, "gyr_x"), df.val i (k, "gyr_y"), df.val i (k, "gyr_z")⟩

/-- Concrete session-style table used to instantiate the theorems: a sync
group, two alignable sensors, one non-motion sensor without underscore, and
one sensor whose position has no entry in the static rotation table. -/
def exampleDF : DataFrame :=
  { cols := [("sync", "trigger"),
             ("l_cavity", "acc_x"), ("l_cavity", "acc_y"), ("l_cavity", "acc_z"),
             ("l_cavity", "gyr_x"), ("l_cavity", "gyr_y"), ("l_cavity", "gyr_z"),
             ("r_heel", "acc_x"), ("r_heel", "acc_y"), ("r_heel", "acc_z"),
             ("r_heel", "gyr_x"), ("r_heel", "gyr_y"), ("r_heel", "gyr_z"),
             ("l_medial", "acc_x"), ("l_medial", "acc_y"), ("l_medial", "acc_z"),
             ("l_medial", "gyr_x"), ("l_medial", "gyr_y"), ("l_medial", "gyr_z"),
             ("baro", "pressure"),
             ("l_unknown", "acc_x")]
    nrows := 2
    val := fun i c => (i : ℚ) + (c.2.length : ℚ) }

/-- Concrete table all of whose sensor groups carry the six acc/gyr channels,
used to instantiate the single-rotation call form. -/
def exampleDFAllSF : DataFrame :=
  { cols := [("l_cavity", "acc_x"), ("l_cavity", "acc_y"), ("l_cavity", "acc_z"),
             ("l_cavity", "gyr_x"), ("l_cavity", "gyr_y"), ("l_cavity", "gyr_z"),
             ("r_heel", "acc_x"), ("r_heel", "acc_y"), ("r_heel", "acc_z"),
             ("r_heel", "gyr_x"), ("r_heel", "gyr_y"), ("r_heel", "gyr_z")]
    nrows := 3
    val := fun i c => (i : ℚ) * (c.2.length : ℚ) }

/-- Membership in the channel list of a sensor group. -/
lemma mem_sensorChannels {df : DataFrame} {k ch : String} :
    ch ∈ sensorChannels df k ↔ (k, ch) ∈ df.cols := by
  unfold sensorChannels
  constructor
  · intro h
    obtain ⟨c, hc, rfl⟩ := List.mem_map.1 h
    obtain ⟨hmem, hk⟩ := List.mem_filter.1 hc
    have hck : c.1 = k := of_decide_eq_true hk
    obtain ⟨c1, c2⟩ := c
    simp only at hck
    subst hck
    exact hmem
  · intro h
    exact List.mem_map.2 ⟨(k, ch), List.mem_filter.2 ⟨h, by simp⟩, rfl⟩

/-- hasSensor succeeds exactly for the sensor names of the table. -/
lemma hasSensor_iff {df : DataFrame} {k : String} :
    hasSensor df k = true ↔ k ∈ df.cols.map Prod.fst := by
  simp only [hasSensor, List.any_eq_true, decide_eq_true_eq, List.mem_map]

/-- hasSFCols guarantees the six acc/gyr columns of the sensor. -/
lemma hasSFCols_mem {df : DataFrame} {k : String} (h : hasSFCols df k = true) :
    ∀ ch ∈ SF_COLS, (k, ch) ∈ df.cols := by
  intro ch hch
  have := List.all_eq_true.1 h ch hch
  exact of_decide_eq_true this

/-- Specification of one loop iteration of rotate_dataset: under the KeyError
preconditions the assignment succeeds, preserves the structure, leaves other
sensors untouched and writes the rotated values of sensor k, computed from the
original table. -/
lemma applyKey_spec (orig : DataFrame) (k : String) (r : Option Mat3) (cur : DataFrame)
    (h1 : hasSensor orig k = true)
    (h2 : ∀ M, r = some M → hasSFCols orig k = true) :
    ∃ cur2, applyKey orig k r cur = some cur2 ∧ cur2.cols = cur.cols ∧
      cur2.nrows = cur.nrows ∧
      (∀ i c, c.1 ≠ k → cur2.val i c = cur.val i c) ∧
      (∀ i c, c.1 = k → c ∈ orig.cols → cur2.val i c = mappedVal orig k r i c) := by
  have hval : ∀ (newv : Nat → String → ℚ) (i : Nat) (c : Col), c.1 = k → c ∈ orig.cols →
      (assignSensor orig cur k newv).val i c = newv i c.2 := by
    intro newv i c hck hmem
    have hch : c.2 ∈ sensorChannels orig k := by
      rw [mem_sensorChannels, ← hck]
      simpa using hmem
    simp [assignSensor, hck, hch]
  have hval2 : ∀ (newv : Nat → String → ℚ) (i : Nat) (c : Col), c.1 ≠ k →
      (assignSensor orig cur k newv).val i c = cur.val i c := by
    intro newv i c hck
    simp [assignSensor, hck]
  cases r with
  | none =>
    refine ⟨assignSensor orig cur k (fun i ch => orig.val i (k, ch)), ?_, rfl, rfl, ?_, ?_⟩
    · simp [applyKey, h1]
    · intro i c hc
      exact hval2 _ i c hc
    · intro i c hck hmem
      rw [hval _ i c hck hmem]
      rfl
  | some M =>
    have hsf : hasSFCols orig k = true := h2 M rfl
    refine ⟨assignSensor orig cur k
      (fun i ch => rotateSensorVals M (fun ch2 => orig.val i (k, ch2)) ch), ?_, rfl, rfl, ?_, ?_⟩
    · simp [applyKey, h1, hsf]
    · intro i c hc
      exact hval2 _ i c hc
    · intro i c hck hmem
      rw [hval _ i c hck hmem]
      rfl

/-- Specification of the full loop of rotate_dataset, by induction over the
key list: structure is preserved, sensors outside the mapping keep the values
of the running table, and every uniquely keyed entry of the mapping determines
the final values of its sensor from the original table. -/
lemma rotate_loop_spec (orig : DataFrame) :
    ∀ (rmap : List (String × Option Mat3)) (cur : DataFrame),
    (∀ kr ∈ rmap, hasSensor orig kr.1 = true) →
    (∀ kr ∈ rmap, ∀ M, kr.2 = some M → hasSFCols orig kr.1 = true) →
    ∃ out, rotate_loop orig cur rmap = some out ∧
      out.cols = cur.cols ∧ out.nrows = cur.nrows ∧
      (∀ i c, c.1 ∉ rmap.map Prod.fst → out.val i c = cur.val i c) ∧
      (∀ kr ∈ rmap, (∀ kr2 ∈ rmap, kr2.1 = kr.1 → kr2 = kr) →
        ∀ i c, c.1 = kr.1 → c ∈ orig.cols → out.val i c = mappedVal orig kr.1 kr.2 i c) := by
  intro rmap
  induction rmap with
  | nil =>
    intro cur h1 h2
    exact ⟨cur, rfl, rfl, rfl, fun i c _ => rfl, by simp⟩
  | cons kr0 rest ih =>
    intro cur h1 h2
    obtain ⟨cur2, happ, hcols2, hn2, huntouched2, hmapped2⟩ :=
      applyKey_spec orig kr0.1 kr0.2 cur (h1 kr0 (by simp)) (fun M hM => h2 kr0 (by simp) M hM)
    obtain ⟨out, hloop, hcols, hn, huntouched, hmapped⟩ :=
      ih cur2 (fun kr h => h1 kr (by simp [h])) (fun kr h => h2 kr (by simp [h]))
    refine ⟨out, ?_, by rw [hcols, hcols2], by rw [hn, hn2], ?_, ?_⟩
    · simp only [rotate_loop, happ]
      exact hloop
    · intro i c hc
      simp only [List.map_cons, List.mem_cons, not_or] at hc
      rw [huntouched i c (by simpa using hc.2), huntouched2 i c hc.1]
    · intro kr hkr huniq i c hck hcc
      have huniqrest : ∀ kr2 ∈ rest, kr2.1 = kr.1 → kr2 = kr := by
        intro kr2 h hkey
        exact huniq kr2 (by simp [h]) hkey
      rcases List.mem_cons.1 hkr with heq | hrest
      · subst heq
        by_cases hk0 : kr.1 ∈ rest.map Prod.fst
        · obtain ⟨kr2, hkr2mem, hkr2key⟩ := List.mem_map.1 hk0
          have hkr2eq : kr2 = kr := huniqrest kr2 hkr2mem hkr2key
          subst hkr2eq
          exact hmapped kr2 hkr2mem huniqrest i c hck hcc
        · rw [huntouched i c (by rw [hck]; exact hk0)]
          exact hmapped2 i c hck hcc
      · exact hmapped kr hrest huniqrest i c hck hcc

/-- Membership in the first-occurrence accumulator. -/
lemma uniqueKeysAux_mem (l : List String) :
    ∀ (acc : List String) (x : String), x ∈ uniqueKeysAux acc l ↔ x ∈ acc ∨ x ∈ l := by
  induction l with
  | nil =>
    intro acc x
    simp [uniqueKeysAux]
  | cons a l ih =>
    intro acc x
    simp only [uniqueKeysAux]
    rw [ih]
    by_cases h : a ∈ acc
    · simp only [if_pos h, List.mem_cons]
      constructor
      · rintro (hx | hx)
        · exact Or.inl hx
        · exact Or.inr (Or.inr hx)
      · rintro (hx | rfl | hx)
        · exact Or.inl hx
        · exact Or.inl h
        · exact Or.inr hx
    · simp only [if_neg h, List.mem_append, List.mem_singleton, List.mem_cons]
      tauto

/-- uniqueKeys keeps exactly the elements of the input list. -/
lemma uniqueKeys_mem {l : List String} {x : String} : x ∈ uniqueKeys l ↔ x ∈ l := by
  rw [uniqueKeys, uniqueKeysAux_mem]
  simp

/-- The first-occurrence accumulator preserves freedom from duplicates. -/
lemma uniqueKeysAux_nodup (l : List String) :
    ∀ acc : List String, acc.Nodup → (uniqueKeysAux acc l).Nodup := by
  induction l with
  | nil =>
    intro acc h
    simpa [uniqueKeysAux] using h
  | cons a l ih =>
    intro acc h
    simp only [uniqueKeysAux]
    apply ih
    by_cases hmem : a ∈ acc
    · simpa [hmem] using h
    · simp only [if_neg hmem]
      rw [List.nodup_append]
      exact ⟨h, List.nodup_singleton a, by simpa using hmem⟩

/-- uniqueKeys produces a duplicate-free list. -/
lemma uniqueKeys_nodup (l : List String) : (uniqueKeys l).Nodup :=
  uniqueKeysAux_nodup l [] List.nodup_nil

/-- In an association list with duplicate-free keys, an entry is determined by
its key. -/
lemma nodup_keys_unique {l : List (String × Option Mat3)}
    (h : (l.map Prod.fst).Nodup) :
    ∀ kr ∈ l, ∀ kr2 ∈ l, kr2.1 = kr.1 → kr2 = kr := by
  induction l with
  | nil => simp
  | cons a l ih =>
    simp only [List.map_cons, List.nodup_cons] at h
    intro kr hkr kr2 hkr2 hkey
    rcases List.mem_cons.1 hkr with rfl | hkrl
    · rcases List.mem_cons.1 hkr2 with rfl | hkr2l
      · rfl
      · exact absurd (hkey ▸ List.mem_map_of_mem Prod.fst hkr2l) h.1
    · rcases List.mem_cons.1 hkr2 with rfl | hkr2l
      · exact absurd (hkey.symm ▸ List.mem_map_of_mem Prod.fst hkrl) h.1
      · exact ih h.2 kr hkrl kr2 hkr2l hkey

/-- Channel formula of _rotate_sensor at acc_x. -/
lemma rotateSensorVals_acc_x (M : Mat3) (v : String → ℚ) :
    rotateSensorVals M v "acc_x" = (M.apply ⟨v "acc_x", v "acc_y", v "acc_z"⟩).x := rfl

/-- Channel formula of _rotate_sensor at acc_y. -/
lemma rotateSensorVals_acc_y (M : Mat3) (v : String → ℚ) :
    rotateSensorVals M v "acc_y" = (M.apply ⟨v "acc_x", v "acc_y", v "acc_z"⟩).y := rfl

/-- Channel formula of _rotate_sensor at acc_z. -/
lemma rotateSensorVals_acc_z (M : Mat3) (v : String → ℚ) :
    rotateSensorVals M v "acc_z" = (M.apply ⟨v "acc_x", v "acc_y", v "acc_z"⟩).z := rfl

/-- Channel formula of _rotate_sensor at gyr_x. -/
lemma rotateSensorVals_gyr_x (M : Mat3) (v : String → ℚ) :
    rotateSensorVals M v "gyr_x" = (M.apply ⟨v "gyr_x", v "gyr_y", v "gyr_z"⟩).x := rfl

/-- Channel formula of _rotate_sensor at gyr_y. -/
lemma rotateSensorVals_gyr_y (M : Mat3) (v : String → ℚ) :
    rotateSensorVals M v "gyr_y" = (M.apply ⟨v "gyr_x", v "gyr_y", v "gyr_z"⟩).y := rfl

/-- Channel formula of _rotate_sensor at gyr_z. -/
lemma rotateSensorVals_gyr_z (M : Mat3) (v : String → ℚ) :
    rotateSensorVals M v "gyr_z" = (M.apply ⟨v "gyr_x", v "gyr_y", v "gyr_z"⟩).z := rfl

/-- Channels outside the six acc/gyr channels are passed through by
_rotate_sensor. -/
lemma rotateSensorVals_nonSF {M : Mat3} {v : String → ℚ} {ch : String}
    (h : ch ∉ SF_COLS) : rotateSensorVals M v ch = v ch := by
  simp only [SF_COLS, SF_ACC, SF_GYR, List.mem_append, List.mem_cons, List.not_mem_nil,
    or_false, not_or] at h
  obtain ⟨⟨h1, h2, h3⟩, h4, h5, h6⟩ := h
  simp [rotateSensorVals, h1, h2, h3, h4, h5, h6]

/-- C1: for every multi-sensor table and every rotation mapping, rotate_dataset
replaces, for each sensor name present in the mapping, the per-row acc and gyr
3-vectors of that sensor by their image under the associated rotation
(new_vector = R dot old_vector), while every sensor absent from the mapping and
every non-acc/gyr column is passed through with values identical to the input.
Stated under the implicit success conditions of the call: every mapped sensor
exists in the table with its six acc/gyr channels, and the mapping, coming
from a Python dict, has duplicate-free keys. -/
theorem rotate_dataset_mapping_spec (df : DataFrame) (rmap : List (String × Option Mat3))
    (h1 : ∀ kr ∈ rmap, hasSensor df kr.1 = true)
    (h2 : ∀ kr ∈ rmap, kr.2.isSome = true → hasSFCols df kr.1 = true)
    (h3 : (rmap.map Prod.fst).Nodup) :
    ∃ out, rotate_dataset df rmap = some out ∧
      (∀ k M, (k, some M) ∈ rmap → ∀ i,
        accVec out i k = Mat3.apply M (accVec df i k) ∧
        gyrVec out i k = Mat3.apply M (gyrVec df i k)) ∧
      (∀ i c, c ∈ df.cols → c.1 ∉ rmap.map Prod.fst → out.val i c = df.val i c) ∧
      (∀ i c, c ∈ df.cols → c.2 ∉ SF_COLS → out.val i c = df.val i c) := by
  obtain ⟨out, hloop, hcols, hn, huntouched, hmapped⟩ :=
    rotate_loop_spec df rmap df h1 (fun kr h M hM => h2 kr h (by rw [hM]; rfl))
  refine ⟨out, hloop, ?_, ?_, ?_⟩
  · intro k M hkM i
    have hsf : hasSFCols df k = true := h2 (k, some M) hkM rfl
    have hm := hmapped (k, some M) hkM (nodup_keys_unique h3 (k, some M) hkM)
    have hax : out.val i (k, "acc_x") = (Mat3.apply M (accVec df i k)).x := by
      rw [hm i (k, "acc_x") rfl (hasSFCols_mem hsf "acc_x" (by decide))]
      show rotateSensorVals M (fun ch => df.val i (k, ch)) "acc_x" = _
      exact rotateSensorVals_acc_x M _
    have hay : out.val i (k, "acc_y") = (Mat3.apply M (accVec df i k)).y := by
      rw [hm i (k, "acc_y") rfl (hasSFCols_mem hsf "acc_y" (by decide))]
      show rotateSensorVals M (fun ch => df.val i (k, ch)) "acc_y" = _
      exact rotateSensorVals_acc_y M _
    have haz : out.val i (k, "acc_z") = (Mat3.apply M (accVec df i k)).z := by
      rw [hm i (k, "acc_z") rfl (hasSFCols_mem hsf "acc_z" (by decide))]
      show rotateSensorVals M (fun ch => df.val i (k, ch)) "acc_z" = _
      exact rotateSensorVals_acc_z M _
    have hgx : out.val i (k, "gyr_x") = (Mat3.apply M (gyrVec df i k)).x := by
      rw [hm i (k, "gyr_x") rfl (hasSFCols_mem hsf "gyr_x" (by decide))]
      show rotateSensorVals M (fun ch => df.val i (k, ch)) "gyr_x" = _
      exact rotateSensorVals_gyr_x M _
    have hgy : out.val i (k, "gyr_y") = (Mat3.apply M (gyrVec df i k)).y := by
      rw [hm i (k, "gyr_y") rfl (hasSFCols_mem hsf "gyr_y" (by decide))]
      show rotateSensorVals M (fun ch => df.val i (k, ch)) "gyr_y" = _
      exact rotateSensorVals_gyr_y M _
    have hgz : out.val i (k, "gyr_z") = (Mat3.apply M (gyrVec df i k)).z := by
      rw [hm i (k, "gyr_z") rfl (hasSFCols_mem hsf "gyr_z" (by decide))]
      show rotateSensorVals M (fun ch => df.val i (k, ch)) "gyr_z" = _
      exact rotateSensorVals_gyr_z M _
    constructor
    · show (⟨out.val i (k, "acc_x"), out.val i (k, "acc_y"), out.val i (k, "acc_z")⟩ : Vec3) = _
      rw [hax, hay, haz]
    · show (⟨out.val i (k, "gyr_x"), out.val i (k, "gyr_y"), out.val i (k, "gyr_z")⟩ : Vec3) = _
      rw [hgx, hgy, hgz]
  · intro i c _ hnot
    exact huntouched i c hnot
  · intro i c hcmem hnsf
    obtain ⟨c1, c2⟩ := c
    by_cases hk : c1 ∈ rmap.map Prod.fst
    · obtain ⟨kr, hkrmem, hkey⟩ := List.mem_map.1 hk
      have hm := hmapped kr hkrmem (nodup_keys_unique h3 kr hkrmem) i (c1, c2) hkey.symm hcmem
      rw [hm]
      simp only at hnsf
      cases hr : kr.2 with
      | none =>
        show df.val i (kr.1, c2) = df.val i (c1, c2)
        rw [hkey]
      | some M =>
        show rotateSensorVals M (fun ch => df.val i (kr.1, ch)) c2 = df.val i (c1, c2)
        rw [rotateSensorVals_nonSF hnsf, hkey]
    · exact huntouched i (c1, c2) hk

/-- Witness for C1 at a concrete table and mapping. -/
theorem rotate_dataset_mapping_spec_witness :
    (∀ kr ∈ [("l_cavity", some rotation_from_angle_180_z)], hasSensor exampleDF kr.1 = true) ∧
    (∀ kr ∈ [("l_cavity", some rotation_from_angle_180_z)],
      kr.2.isSome = true → hasSFCols exampleDF kr.1 = true) ∧
    (([("l_cavity", some rotation_from_angle_180_z)].map Prod.fst).Nodup) ∧
    (∃ out, rotate_dataset exampleDF [("l_cavity", some rotation_from_angle_180_z)] = some out ∧
      (∀ k M, (k, some M) ∈ [("l_cavity", some rotation_from_angle_180_z)] → ∀ i,
        accVec out i k = Mat3.apply M (accVec exampleDF i k) ∧
        gyrVec out i k = Mat3.apply M (gyrVec exampleDF i k)) ∧
      (∀ i c, c ∈ exampleDF.cols →
        c.1 ∉ [("l_cavity", some rotation_from_angle_180_z)].map Prod.fst →
        out.val i c = exampleDF.val i c) ∧
      (∀ i c, c ∈ exampleDF.cols → c.2 ∉ SF_COLS → out.val i c = exampleDF.val i c)) :=
  ⟨by decide, by decide, by decide,
    rotate_dataset_mapping_spec exampleDF [("l_cavity", some rotation_from_angle_180_z)]
      (by decide) (by decide) (by decide)⟩

/-- C2: for every input table and for both call forms (a per-sensor mapping of
rotations, or a single rotation), rotate_dataset returns a table with the same
row count, the same column set and exactly the same column order as the input;
the embedding is a pure function of an explicit copy of the input, matching the
source, which copies the input table and never mutates it. Stated under the
implicit success conditions of each call form. -/
theorem rotate_dataset_preserves_structure (df : DataFrame) :
    (∀ rmap : List (String × Option Mat3),
      (∀ kr ∈ rmap, hasSensor df kr.1 = true) →
      (∀ kr ∈ rmap, kr.2.isSome = true → hasSFCols df kr.1 = true) →
      ∃ out, rotate_dataset df rmap = some out ∧ out.cols = df.cols ∧
        out.nrows = df.nrows) ∧
    (∀ M : Mat3,
      (∀ k ∈ df.cols.map Prod.fst, hasSFCols df k = true) →
      ∃ out, rotate_dataset_single df M = some out ∧ out.cols = df.cols ∧
        out.nrows = df.nrows) := by
  constructor
  · intro rmap h1 h2
    obtain ⟨out, hloop, hcols, hn, _, _⟩ :=
      rotate_loop_spec df rmap df h1 (fun kr h M hM => h2 kr h (by rw [hM]; rfl))
    exact ⟨out, hloop, hcols, hn⟩
  · intro M hsf
    have h1 : ∀ kr ∈ (uniqueKeys (df.cols.map Prod.fst)).map (fun k => (k, some M)),
        hasSensor df kr.1 = true := by
      intro kr hkr
      obtain ⟨k, hkmem, rfl⟩ := List.mem_map.1 hkr
      exact hasSensor_iff.2 (uniqueKeys_mem.1 hkmem)
    have h2 : ∀ kr ∈ (uniqueKeys (df.cols.map Prod.fst)).map (fun k => (k, some M)),
        ∀ N, kr.2 = some N → hasSFCols df kr.1 = true := by
      intro kr hkr N _
      obtain ⟨k, hkmem, rfl⟩ := List.mem_map.1 hkr
      exact hsf k (uniqueKeys_mem.1 hkmem)
    obtain ⟨out, hloop, hcols, hn, _, _⟩ :=
      rotate_loop_spec df ((uniqueKeys (df.cols.map Prod.fst)).map (fun k => (k, some M))) df h1 h2
    exact ⟨out, hloop, hcols, hn⟩

/-- Witness for C2 at a concrete table, for both call forms. -/
theorem rotate_dataset_preserves_structure_witness :
    (∃ out, rotate_dataset exampleDF [("r_heel", some rotation_from_angle_180_z)] = some out ∧
      out.cols = exampleDF.cols ∧ out.nrows = exampleDF.nrows) ∧
    (∃ out, rotate_dataset_single exampleDFAllSF rotation_from_angle_180_z = some out ∧
      out.cols = exampleDFAllSF.cols ∧ out.nrows = exampleDFAllSF.nrows) :=
  ⟨(rotate_dataset_preserves_structure exampleDF).1
      [("r_heel", some rotation_from_angle_180_z)] (by decide) (by decide),
    (rotate_dataset_preserves_structure exampleDFAllSF).2 rotation_from_angle_180_z (by decide)⟩

/-- A character list without the separator is not split. -/
lemma splitOnChar_of_not_contains {c : Char} :
    ∀ {l : List Char}, l.contains c = false → splitOnChar c l = [l] := by
  intro l
  induction l with
  | nil => intro _; rfl
  | cons a rest ih =>
    intro h
    simp only [List.contains_cons, Bool.or_eq_false_iff] at h
    have hne : a ≠ c := by
      intro hac
      subst hac
      simp at h
    rw [splitOnChar, if_neg hne, ih h.2]

/-- A two-part split certifies that the separator occurs in the string. -/
lemma pySplit_pair_contains {s : String} {c : Char} {a b : String}
    (h : pySplit s c = [a, b]) : s.toList.contains c = true := by
  by_contra hc
  have hc2 : s.toList.contains c = false := by
    cases h2 : s.toList.contains c
    · rfl
    · exact absurd h2 hc
  rw [pySplit, splitOnChar_of_not_contains hc2] at h
  simp at h


/-- Specification of the rotation selection loop of align_coordinates: its
keys form a sublist of the sensor list, a sensor with a two-part split name
and a known position is mapped to the side-selected matrix, and a sensor
without underscore or without table entry never appears among the keys. -/
lemma alignRotations_spec :
    ∀ (sensors : List String) (rots : List (String × Option Mat3)),
    alignRotations sensors = some rots →
    (List.Sublist (rots.map Prod.fst) sensors) ∧
    (∀ s foot pos mats, s ∈ sensors → pySplit s '_' = [foot, pos] →
      COORDINATE_TRANSFORMATION_DICT ("qualisis_" ++ pos ++ "_nilspodv1") = some mats →
      ((foot = "r" → (s, some mats.2) ∈ rots) ∧ (foot = "l" → (s, some mats.1) ∈ rots))) ∧
    (∀ s, s ∈ sensors → s.toList.contains '_' = false → s ∉ rots.map Prod.fst) ∧
    (∀ s foot pos, s ∈ sensors → pySplit s '_' = [foot, pos] →
      COORDINATE_TRANSFORMATION_DICT ("qualisis_" ++ pos ++ "_nilspodv1") = none →
      s ∉ rots.map Prod.fst) := by
  intro sensors
  induction sensors with
  | nil =>
    intro rots h
    simp only [alignRotations, Option.some.injEq] at h
    subst h
    refine ⟨List.nil_sublist [], ?_, ?_, ?_⟩ <;> simp
  | cons s0 rest ih =>
    intro rots h
    rw [alignRotations] at h
    by_cases hc0 : s0.toList.contains '_' = false
    · rw [if_pos hc0] at h
      obtain ⟨hsub, hmem, hnone1, hnone2⟩ := ih rots h
      refine ⟨hsub.cons s0, ?_, ?_, ?_⟩
      · intro s foot pos mats hs hsplit hctd
        rcases List.mem_cons.1 hs with rfl | hs
        · have hct := pySplit_pair_contains hsplit
          rw [hc0] at hct
          exact Bool.noConfusion hct
        · exact hmem s foot pos mats hs hsplit hctd
      · intro s hs hcs
        rcases List.mem_cons.1 hs with rfl | hs
        · intro hk
          exact hnone1 s (hsub.subset hk) hcs hk
        · exact hnone1 s hs hcs
      · intro s foot pos hs hsplit hctd
        rcases List.mem_cons.1 hs with rfl | hs
        · intro hk
          exact hnone2 s foot pos (hsub.subset hk) hsplit hctd hk
        · exact hnone2 s foot pos hs hsplit hctd
    · rw [if_neg hc0] at h
      have hc0t : s0.toList.contains '_' = true := by
        cases h2 : s0.toList.contains '_'
        · exact absurd h2 hc0
        · rfl
      rcases hps : pySplit s0 '_' with _ | ⟨foot0, _ | ⟨pos0, _ | ⟨x, xs⟩⟩⟩
      · rw [hps] at h
        simp at h
      · rw [hps] at h
        simp at h
      · rw [hps] at h
        dsimp only at h
        rcases hctd0 : COORDINATE_TRANSFORMATION_DICT ("qualisis_" ++ pos0 ++ "_nilspodv1") with
          _ | mats0
        · rw [hctd0] at h
          dsimp only at h
          obtain ⟨hsub, hmem, hnone1, hnone2⟩ := ih rots h
          refine ⟨hsub.cons s0, ?_, ?_, ?_⟩
          · intro s foot pos mats hs hsplit hctd
            rcases List.mem_cons.1 hs with rfl | hs
            · rw [hps] at hsplit
              have hfp : foot0 = foot ∧ pos0 = pos := by simpa using hsplit
              rw [← hfp.2, hctd0] at hctd
              exact Option.noConfusion hctd
            · exact hmem s foot pos mats hs hsplit hctd
          · intro s hs hcs
            rcases List.mem_cons.1 hs with rfl | hs
            · intro hk
              exact hnone1 s (hsub.subset hk) hcs hk
            · exact hnone1 s hs hcs
          · intro s foot pos hs hsplit hctd
            rcases List.mem_cons.1 hs with rfl | hs
            · intro hk
              exact hnone2 s foot pos (hsub.subset hk) hsplit hctd hk
            · exact hnone2 s foot pos hs hsplit hctd
        · rw [hctd0] at h
          dsimp only at h
          have main : ∀ mside : Option Mat3,
              (alignRotations rest).map (fun l => (s0, mside) :: l) = some rots →
              ∃ rots2, alignRotations rest = some rots2 ∧ rots = (s0, mside) :: rots2 := by
            intro mside hmap
            rcases hrest : alignRotations rest with _ | rots2
            · rw [hrest] at hmap
              exact Option.noConfusion hmap
            · rw [hrest] at hmap
              have hmap2 : some ((s0, mside) :: rots2) = some rots := hmap
              cases hmap2
              exact ⟨rots2, rfl, rfl⟩
          by_cases hr : foot0 = "r"
          · rw [if_pos hr] at h
            obtain ⟨rots2, hrest, rfl⟩ := main (some mats0.2) h
            obtain ⟨hsub, hmem, hnone1, hnone2⟩ := ih rots2 hrest
            refine ⟨by simpa using hsub.cons₂ s0, ?_, ?_, ?_⟩
            · intro s foot pos mats hs hsplit hctd
              rcases List.mem_cons.1 hs with rfl | hs
              · rw [hps] at hsplit
                have hfp : foot0 = foot ∧ pos0 = pos := by simpa using hsplit
                rw [← hfp.2, hctd0] at hctd
                have hmats : mats0 = mats := by simpa using hctd
                subst hmats
                constructor
                · intro _
                  exact List.mem_cons_self _ _
                · intro hl
                  rw [← hfp.1, hr] at hl
                  exact absurd hl (by decide)
              · have hh := hmem s foot pos mats hs hsplit hctd
                exact ⟨fun hf => List.mem_cons_of_mem _ (hh.1 hf),
                  fun hf => List.mem_cons_of_mem _ (hh.2 hf)⟩
            · intro s hs hcs
              simp only [List.map_cons, List.mem_cons, not_or]
              constructor
              · intro hx
                subst hx
                rw [hcs] at hc0t
                exact Bool.noConfusion hc0t
              · rcases List.mem_cons.1 hs with rfl | hs
                · intro hk
                  exact hnone1 s (hsub.subset hk) hcs hk
                · exact hnone1 s hs hcs
            · intro s foot pos hs hsplit hctd
              simp only [List.map_cons, List.mem_cons, not_or]
              constructor
              · intro hx
                subst hx
                rw [hps] at hsplit
                have hfp : foot0 = foot ∧ pos0 = pos := by simpa using hsplit
                rw [← hfp.2, hctd0] at hctd
                exact Option.noConfusion hctd
              · rcases List.mem_cons.1 hs with rfl | hs
                · intro hk
                  exact hnone2 s foot pos (hsub.subset hk) hsplit hctd hk
                · exact hnone2 s foot pos hs hsplit hctd
          · by_cases hl0 : foot0 = "l"
            · rw [if_neg hr, if_pos hl0] at h
              obtain ⟨rots2, hrest, rfl⟩ := main (some mats0.1) h
              obtain ⟨hsub, hmem, hnone1, hnone2⟩ := ih rots2 hrest
              refine ⟨by simpa using hsub.cons₂ s0, ?_, ?_, ?_⟩
              · intro s foot pos mats hs hsplit hctd
                rcases List.mem_cons.1 hs with rfl | hs
                · rw [hps] at hsplit
                  have hfp : foot0 = foot ∧ pos0 = pos := by simpa using hsplit
                  rw [← hfp.2, hctd0] at hctd
                  have hmats : mats0 = mats := by simpa using hctd
                  subst hmats
                  constructor
                  · intro hrr
                    rw [← hfp.1, hl0] at hrr
                    exact absurd hrr (by decide)
                  · intro _
                    exact List.mem_cons_self _ _
                · have hh := hmem s foot pos mats hs hsplit hctd
                  exact ⟨fun hf => List.mem_cons_of_mem _ (hh.1 hf),
                    fun hf => List.mem_cons_of_mem _ (hh.2 hf)⟩
              · intro s hs hcs
                simp only [List.map_cons, List.mem_cons, not_or]
                constructor
                · intro hx
                  subst hx
                  rw [hcs] at hc0t
                  exact Bool.noConfusion hc0t
                · rcases List.mem_cons.1 hs with rfl | hs
                  · intro hk
                    exact hnone1 s (hsub.subset hk) hcs hk
                  · exact hnone1 s hs hcs
              · intro s foot pos hs hsplit hctd
                simp only [List.map_cons, List.mem_cons, not_or]
                constructor
                · intro hx
                  subst hx
                  rw [hps] at hsplit
                  have hfp : foot0 = foot ∧ pos0 = pos := by simpa using hsplit
                  rw [← hfp.2, hctd0] at hctd
                  exact Option.noConfusion hctd
                · rcases List.mem_cons.1 hs with rfl | hs
                  · intro hk
                    exact hnone2 s foot pos (hsub.subset hk) hsplit hctd hk
                  · exact hnone2 s foot pos hs hsplit hctd
            · rw [if_neg hr, if_neg hl0] at h
              exact Option.noConfusion h
      · rw [hps] at h
        simp at h

/-- Success and value characterization of align_coordinates under its
decidable precondition: the non-sync columns come first in original order with
the sync columns re-attached at the end, sync values are copied from the
input, sensors outside the selected rotation mapping keep their input values,
and selected sensors carry the values written by the rotation loop. -/
lemma align_coordinates_spec (df : DataFrame) (h : alignOK df = true) :
    ∃ rots, alignRotations (uniqueKeys (df.cols.map Prod.fst)) = some rots ∧
    ∃ out, align_coordinates df = some out ∧
      out.cols = df.cols.filter (fun c => decide (c.1 ≠ "sync")) ++
        df.cols.filter (fun c => decide (c.1 = "sync")) ∧
      out.nrows = df.nrows ∧
      (∀ i c, c.1 = "sync" → out.val i c = df.val i c) ∧
      (∀ i c, c ∈ df.cols → c.1 ≠ "sync" → c.1 ∉ rots.map Prod.fst →
        out.val i c = df.val i c) ∧
      (∀ kr ∈ rots, ∀ i c, c.1 = kr.1 → c ∈ df.cols → c.1 ≠ "sync" →
        out.val i c = mappedVal df kr.1 kr.2 i c) ∧
      (∀ kr ∈ rots, kr.2.isSome = true → hasSFCols (dropSensor df "sync") kr.1 = true) := by
  unfold alignOK at h
  rw [Bool.and_eq_true] at h
  obtain ⟨hsync, hrest⟩ := h
  rcases halr : alignRotations (uniqueKeys (df.cols.map Prod.fst)) with _ | rots
  · rw [halr] at hrest
    exact absurd hrest (by simp)
  · rw [halr] at hrest
    have hall := List.all_eq_true.1 hrest
    have h1 : ∀ kr ∈ rots, hasSensor (dropSensor df "sync") kr.1 = true := by
      intro kr hkr
      have hh := hall kr hkr
      rw [Bool.and_eq_true] at hh
      exact hh.1
    have h2 : ∀ kr ∈ rots, ∀ M, kr.2 = some M → hasSFCols (dropSensor df "sync") kr.1 = true := by
      intro kr hkr M hM
      have hh := hall kr hkr
      rw [Bool.and_eq_true] at hh
      have hh2 := hh.2
      rw [hM] at hh2
      exact hh2
    obtain ⟨out0, hloop, hcols0, hn0, huntouched0, hmapped0⟩ :=
      rotate_loop_spec (dropSensor df "sync") rots (dropSensor df "sync") h1 h2
    have hrd : rotate_dataset (dropSensor df "sync") rots = some out0 := hloop
    obtain ⟨hsub, _, _, _⟩ := alignRotations_spec _ rots halr
    have hnodup : (rots.map Prod.fst).Nodup :=
      List.Nodup.sublist hsub (uniqueKeys_nodup _)
    refine ⟨rots, rfl, reattachSync df out0, ?_, ?_, ?_, ?_, ?_, ?_, ?_⟩
    · simp only [align_coordinates, hsync, if_true, halr, hrd]
    · show out0.cols ++ df.cols.filter (fun c => decide (c.1 = "sync")) = _
      rw [hcols0]
      rfl
    · exact hn0
    · intro i c hc
      simp only [reattachSync, if_pos hc]
    · intro i c hcmem hne hnk
      show (if c.1 = "sync" then df.val i c else out0.val i c) = df.val i c
      rw [if_neg hne, huntouched0 i c hnk]
      rfl
    · intro kr hkr i c hck hcmem hne
      show (if c.1 = "sync" then df.val i c else out0.val i c) = mappedVal df kr.1 kr.2 i c
      rw [if_neg hne]
      have hcdrop : c ∈ (dropSensor df "sync").cols :=
        List.mem_filter.2 ⟨hcmem, by simpa using hne⟩
      exact hmapped0 kr hkr (nodup_keys_unique hnodup kr hkr) i c hck hcdrop
    · intro kr hkr hkr2
      obtain ⟨M, hM⟩ := Option.isSome_iff_exists.1 hkr2
      exact h2 kr hkr M hM

/-- Pointwise rotation equations on all six channels give the acc and gyr
vector equations. -/
lemma acc_gyr_of_rotated {out df : DataFrame} {k : String} {M : Mat3}
    (hmv : ∀ ch, ch ∈ SF_COLS → ∀ i,
      out.val i (k, ch) = rotateSensorVals M (fun ch2 => df.val i (k, ch2)) ch) :
    ∀ i, accVec out i k = Mat3.apply M (accVec df i k) ∧
      gyrVec out i k = Mat3.apply M (gyrVec df i k) := by
  intro i
  constructor
  · show (⟨out.val i (k, "acc_x"), out.val i (k, "acc_y"), out.val i (k, "acc_z")⟩ : Vec3) = _
    rw [hmv "acc_x" (by decide) i, hmv "acc_y" (by decide) i, hmv "acc_z" (by decide) i,
      rotateSensorVals_acc_x, rotateSensorVals_acc_y, rotateSensorVals_acc_z]
    rfl
  · show (⟨out.val i (k, "gyr_x"), out.val i (k, "gyr_y"), out.val i (k, "gyr_z")⟩ : Vec3) = _
    rw [hmv "gyr_x" (by decide) i, hmv "gyr_y" (by decide) i, hmv "gyr_z" (by decide) i,
      rotateSensorVals_gyr_x, rotateSensorVals_gyr_y, rotateSensorVals_gyr_z]
    rfl

/-- C3: for every input multi-sensor table containing a sync column group, the
output of align_coordinates has a sync group whose values are exactly equal to
the values of the sync group of the input; the sync data is never rotated.
Stated under the decidable success condition of the call. -/
theorem align_coordinates_preserves_sync (df : DataFrame) (h : alignOK df = true) :
    ∃ out, align_coordinates df = some out ∧
      out.cols.filter (fun c => decide (c.1 = "sync")) =
        df.cols.filter (fun c => decide (c.1 = "sync")) ∧
      (∀ i c, c.1 = "sync" → out.val i c = df.val i c) := by
  obtain ⟨rots, halr, out, halign, hcols, hn, hsyncv, _, _, _⟩ := align_coordinates_spec df h
  refine ⟨out, halign, ?_, hsyncv⟩
  rw [hcols, List.filter_append]
  have hA : (df.cols.filter (fun c => decide (c.1 ≠ "sync"))).filter
      (fun c => decide (c.1 = "sync")) = [] := by
    rw [List.filter_eq_nil_iff]
    intro c hc
    have hmem := List.mem_filter.1 hc
    simp only [decide_eq_true_eq] at hmem ⊢
    exact hmem.2
  have hB : (df.cols.filter (fun c => decide (c.1 = "sync"))).filter
      (fun c => decide (c.1 = "sync")) = df.cols.filter (fun c => decide (c.1 = "sync")) := by
    rw [List.filter_eq_self]
    intro c hc
    exact (List.mem_filter.1 hc).2
  rw [hA, hB]
  rfl

/-- Witness for C3 at a concrete table. -/
theorem align_coordinates_preserves_sync_witness :
    alignOK exampleDF = true ∧
    (∃ out, align_coordinates exampleDF = some out ∧
      out.cols.filter (fun c => decide (c.1 = "sync")) =
        exampleDF.cols.filter (fun c => decide (c.1 = "sync")) ∧
      (∀ i c, c.1 = "sync" → out.val i c = exampleDF.val i c)) :=
  ⟨by decide, align_coordinates_preserves_sync exampleDF (by decide)⟩

/-- C10: for every input table containing a sync column group, the output of
align_coordinates does not in general preserve the column order of the input:
its columns are the non-sync columns in their original order followed by the
re-attached sync columns at the end, even when sync was not last in the input,
as the concrete instance in the second conjunct shows. -/
theorem align_coordinates_sync_moved_to_end (df : DataFrame) (h : alignOK df = true) :
    (∃ out, align_coordinates df = some out ∧
      out.cols = df.cols.filter (fun c => decide (c.1 ≠ "sync")) ++
        df.cols.filter (fun c => decide (c.1 = "sync"))) ∧
    (∃ d o, align_coordinates d = some o ∧ o.cols ≠ d.cols) := by
  constructor
  · obtain ⟨rots, halr, out, halign, hcols, _⟩ := align_coordinates_spec df h
    exact ⟨out, halign, hcols⟩
  · obtain ⟨rots, halr, o, halign, hcols, _⟩ := align_coordinates_spec exampleDF (by decide)
    refine ⟨exampleDF, o, halign, ?_⟩
    rw [hcols]
    decide

/-- Witness for C10 at a concrete table whose sync group comes first. -/
theorem align_coordinates_sync_moved_to_end_witness :
    (∃ out, align_coordinates exampleDF = some out ∧
      out.cols = exampleDF.cols.filter (fun c => decide (c.1 ≠ "sync")) ++
        exampleDF.cols.filter (fun c => decide (c.1 = "sync"))) ∧
    (∃ d o, align_coordinates d = some o ∧ o.cols ≠ d.cols) :=
  align_coordinates_sync_moved_to_end exampleDF (by decide)

/-- C4: align_coordinates selects, for every sensor column group named
{side}_{position}, the rotation found under qualisis_{position}_nilspodv1 in
the static rotation table, the right_sensor matrix for side r and the
left_sensor matrix for side l; a sensor whose position has no table entry and
a sensor whose name contains no underscore are left unrotated, with values
identical to the input. Stated under the decidable success condition of the
call. -/
theorem align_coordinates_rotation_selection (df : DataFrame) (h : alignOK df = true) :
    ∃ out, align_coordinates df = some out ∧
      (∀ s side pos mats, s ∈ df.cols.map Prod.fst → pySplit s '_' = [side, pos] →
        COORDINATE_TRANSFORMATION_DICT ("qualisis_" ++ pos ++ "_nilspodv1") = some mats →
        ∀ i,
          (side = "r" → accVec out i s = Mat3.apply mats.2 (accVec df i s) ∧
            gyrVec out i s = Mat3.apply mats.2 (gyrVec df i s)) ∧
          (side = "l" → accVec out i s = Mat3.apply mats.1 (accVec df i s) ∧
            gyrVec out i s = Mat3.apply mats.1 (gyrVec df i s))) ∧
      (∀ s, s ∈ df.cols.map Prod.fst → s.toList.contains '_' = false →
        ∀ i c, c ∈ df.cols → c.1 = s → out.val i c = df.val i c) ∧
      (∀ s side pos, s ∈ df.cols.map Prod.fst → pySplit s '_' = [side, pos] →
        COORDINATE_TRANSFORMATION_DICT ("qualisis_" ++ pos ++ "_nilspodv1") = none →
        ∀ i c, c ∈ df.cols → c.1 = s → out.val i c = df.val i c) := by
  obtain ⟨rots, halr, out, halign, hcols, hn, hsyncv, huntouched, hmapped, hSF⟩ :=
    align_coordinates_spec df h
  obtain ⟨hsub, hmem, hnone1, hnone2⟩ := alignRotations_spec _ rots halr
  have hvals : ∀ (s : String) (mats : Mat3), (s, some mats) ∈ rots → s ≠ "sync" →
      ∀ i, accVec out i s = Mat3.apply mats (accVec df i s) ∧
        gyrVec out i s = Mat3.apply mats (gyrVec df i s) := by
    intro s mats hkr hsne
    apply acc_gyr_of_rotated
    intro ch hch j
    have hsf := hSF (s, some mats) hkr rfl
    have hmemch : (s, ch) ∈ (dropSensor df "sync").cols := hasSFCols_mem hsf ch hch
    have hcolmem : (s, ch) ∈ df.cols := List.mem_of_mem_filter hmemch
    have hv := hmapped (s, some mats) hkr j (s, ch) rfl hcolmem hsne
    exact hv
  refine ⟨out, halign, ?_, ?_, ?_⟩
  · intro s side pos mats hs hsplit hctd i
    have hsu : s ∈ uniqueKeys (df.cols.map Prod.fst) := uniqueKeys_mem.2 hs
    have hm := hmem s side pos mats hsu hsplit hctd
    have hsne : s ≠ "sync" := by
      intro hss
      subst hss
      have hct := pySplit_pair_contains hsplit
      rw [show ("sync").toList.contains '_' = false from by decide] at hct
      exact Bool.noConfusion hct
    constructor
    · intro hr
      exact hvals s mats.2 (hm.1 hr) hsne i
    · intro hl
      exact hvals s mats.1 (hm.2 hl) hsne i
  · intro s hs hcf i c hcmem hck
    by_cases hss : s = "sync"
    · subst hss
      exact hsyncv i c hck
    · have hsu : s ∈ uniqueKeys (df.cols.map Prod.fst) := uniqueKeys_mem.2 hs
      have hnk : s ∉ rots.map Prod.fst := hnone1 s hsu hcf
      refine huntouched i c hcmem ?_ ?_
      · rw [hck]
        exact hss
      · rw [hck]
        exact hnk
  · intro s side pos hs hsplit hctd i c hcmem hck
    have hsne : s ≠ "sync" := by
      intro hss
      subst hss
      have hct := pySplit_pair_contains hsplit
      rw [show ("sync").toList.contains '_' = false from by decide] at hct
      exact Bool.noConfusion hct
    have hsu : s ∈ uniqueKeys (df.cols.map Prod.fst) := uniqueKeys_mem.2 hs
    have hnk : s ∉ rots.map Prod.fst := hnone2 s side pos hsu hsplit hctd
    refine huntouched i c hcmem ?_ ?_
    · rw [hck]
      exact hsne
    · rw [hck]
      exact hnk

/-- Witness for C4 at a concrete table. -/
theorem align_coordinates_rotation_selection_witness :
    alignOK exampleDF = true ∧
    (∃ out, align_coordinates exampleDF = some out ∧
      (∀ s side pos mats, s ∈ exampleDF.cols.map Prod.fst → pySplit s '_' = [side, pos] →
        COORDINATE_TRANSFORMATION_DICT ("qualisis_" ++ pos ++ "_nilspodv1") = some mats →
        ∀ i,
          (side = "r" → accVec out i s = Mat3.apply mats.2 (accVec exampleDF i s) ∧
            gyrVec out i s = Mat3.apply mats.2 (gyrVec exampleDF i s)) ∧
          (side = "l" → accVec out i s = Mat3.apply mats.1 (accVec exampleDF i s) ∧
            gyrVec out i s = Mat3.apply mats.1 (gyrVec exampleDF i s))) ∧
      (∀ s, s ∈ exampleDF.cols.map Prod.fst → s.toList.contains '_' = false →
        ∀ i c, c ∈ exampleDF.cols → c.1 = s → out.val i c = exampleDF.val i c) ∧
      (∀ s side pos, s ∈ exampleDF.cols.map Prod.fst → pySplit s '_' = [side, pos] →
        COORDINATE_TRANSFORMATION_DICT ("qualisis_" ++ pos ++ "_nilspodv1") = none →
        ∀ i c, c ∈ exampleDF.cols → c.1 = s → out.val i c = exampleDF.val i c)) :=
  ⟨by decide, align_coordinates_rotation_selection exampleDF (by decide)⟩

/-- Values written by a 180 degree vertical-axis rotation of one sensor: the x
and y channels are negated, the z channels are unchanged. -/
lemma rot180z_vals {df out : DataFrame} {k : String}
    (hm : ∀ i c, c.1 = k → c ∈ df.cols →
      out.val i c = mappedVal df k (some rotation_from_angle_180_z) i c)
    (hsf : hasSFCols df k = true) :
    ∀ i, out.val i (k, "acc_x") = - df.val i (k, "acc_x") ∧
      out.val i (k, "acc_y") = - df.val i (k, "acc_y") ∧
      out.val i (k, "acc_z") = df.val i (k, "acc_z") ∧
      out.val i (k, "gyr_x") = - df.val i (k, "gyr_x") ∧
      out.val i (k, "gyr_y") = - df.val i (k, "gyr_y") ∧
      out.val i (k, "gyr_z") = df.val i (k, "gyr_z") := by
  intro i
  have hmv : ∀ ch, ch ∈ SF_COLS →
      out.val i (k, ch) =
        rotateSensorVals rotation_from_angle_180_z (fun ch2 => df.val i (k, ch2)) ch := by
    intro ch hch
    exact hm i (k, ch) rfl (hasSFCols_mem hsf ch hch)
  refine ⟨?_, ?_, ?_, ?_, ?_, ?_⟩
  · rw [hmv "acc_x" (by decide), rotateSensorVals_acc_x]
    show (-1 : ℚ) * df.val i (k, "acc_x") + 0 * df.val i (k, "acc_y") +
      0 * df.val i (k, "acc_z") = _
    ring
  · rw [hmv "acc_y" (by decide), rotateSensorVals_acc_y]
    show (0 : ℚ) * df.val i (k, "acc_x") + -1 * df.val i (k, "acc_y") +
      0 * df.val i (k, "acc_z") = _
    ring
  · rw [hmv "acc_z" (by decide), rotateSensorVals_acc_z]
    show (0 : ℚ) * df.val i (k, "acc_x") + 0 * df.val i (k, "acc_y") +
      1 * df.val i (k, "acc_z") = _
    ring
  · rw [hmv "gyr_x" (by decide), rotateSensorVals_gyr_x]
    show (-1 : ℚ) * df.val i (k, "gyr_x") + 0 * df.val i (k, "gyr_y") +
      0 * df.val i (k, "gyr_z") = _
    ring
  · rw [hmv "gyr_y" (by decide), rotateSensorVals_gyr_y]
    show (0 : ℚ) * df.val i (k, "gyr_x") + -1 * df.val i (k, "gyr_y") +
      0 * df.val i (k, "gyr_z") = _
    ring
  · rw [hmv "gyr_z" (by decide), rotateSensorVals_gyr_z]
    show (0 : ℚ) * df.val i (k, "gyr_x") + 0 * df.val i (k, "gyr_y") +
      1 * df.val i (k, "gyr_z") = _
    ring

/-- Single-key instance of the rotation loop specification, as used by the
session fixups. -/
lemma rotate_dataset_single_key (df : DataFrame) (k : String) (M : Mat3)
    (h1 : hasSensor df k = true) (h2 : hasSFCols df k = true) :
    ∃ out, rotate_dataset df [(k, some M)] = some out ∧
      out.cols = df.cols ∧ out.nrows = df.nrows ∧
      (∀ i c, c.1 ≠ k → out.val i c = df.val i c) ∧
      (∀ i c, c.1 = k → c ∈ df.cols → out.val i c = mappedVal df k (some M) i c) := by
  obtain ⟨out, hloop, hcols, hn, huntouched, hmapped⟩ :=
    rotate_loop_spec df [(k, some M)] df (by simpa using h1) (by simpa using h2)
  refine ⟨out, hloop, hcols, hn, ?_, ?_⟩
  · intro i c hc
    exact huntouched i c (by simpa using hc)
  · intro i c hck hcm
    exact hmapped (k, some M) (by simp) (by simp) i c hck hcm

/-- C8: session assembly applies a 180 degree rotation about the vertical axis
to the l_cavity sensor for every subject in the fixed allow-list 8d60, cb3d,
cdfc (so acc_x and acc_y are negated, acc_z is kept, and likewise for gyr),
and to the l_medial sensor for every subject in the disjoint allow-list 4d91,
5237, 80b8, c9bb; no other subject and no other sensor is touched. The fixup
happens inside get_session_df, hence before and in addition to any coordinate
alignment requested later by the caller. Stated for tables carrying both
sensors with their six channels, as every merged session table does. -/
theorem get_session_df_fixup_spec (df : DataFrame)
    (hcav : hasSensor df "l_cavity" = true) (hcavSF : hasSFCols df "l_cavity" = true)
    (hmed : hasSensor df "l_medial" = true) (hmedSF : hasSFCols df "l_medial" = true) :
    (∀ s ∈ CAVITY_FIX_SUBJECTS, ∃ out, get_session_df_fixup s df = some out ∧
      (∀ i, out.val i ("l_cavity", "acc_x") = - df.val i ("l_cavity", "acc_x") ∧
        out.val i ("l_cavity", "acc_y") = - df.val i ("l_cavity", "acc_y") ∧
        out.val i ("l_cavity", "acc_z") = df.val i ("l_cavity", "acc_z") ∧
        out.val i ("l_cavity", "gyr_x") = - df.val i ("l_cavity", "gyr_x") ∧
        out.val i ("l_cavity", "gyr_y") = - df.val i ("l_cavity", "gyr_y") ∧
        out.val i ("l_cavity", "gyr_z") = df.val i ("l_cavity", "gyr_z")) ∧
      (∀ i c, c.1 ≠ "l_cavity" → out.val i c = df.val i c)) ∧
    (∀ s ∈ MEDIAL_FIX_SUBJECTS, ∃ out, get_session_df_fixup s df = some out ∧
      (∀ i, out.val i ("l_medial", "acc_x") = - df.val i ("l_medial", "acc_x") ∧
        out.val i ("l_medial", "acc_y") = - df.val i ("l_medial", "acc_y") ∧
        out.val i ("l_medial", "acc_z") = df.val i ("l_medial", "acc_z") ∧
        out.val i ("l_medial", "gyr_x") = - df.val i ("l_medial", "gyr_x") ∧
        out.val i ("l_medial", "gyr_y") = - df.val i ("l_medial", "gyr_y") ∧
        out.val i ("l_medial", "gyr_z") = df.val i ("l_medial", "gyr_z")) ∧
      (∀ i c, c.1 ≠ "l_medial" → out.val i c = df.val i c)) ∧
    (∀ s, s ∉ CAVITY_FIX_SUBJECTS → s ∉ MEDIAL_FIX_SUBJECTS →
      get_session_df_fixup s df = some df) ∧
    (∀ s ∈ CAVITY_FIX_SUBJECTS, s ∉ MEDIAL_FIX_SUBJECTS) := by
  have hdisj : ∀ s ∈ CAVITY_FIX_SUBJECTS, s ∉ MEDIAL_FIX_SUBJECTS := by
    intro s hs
    rcases (by simpa [CAVITY_FIX_SUBJECTS] using hs : s = "8d60" ∨ s = "cb3d" ∨ s = "cdfc")
      with rfl | rfl | rfl <;> decide
  obtain ⟨outc, hrotc, hcolsc, hnc, huntc, hmapc⟩ :=
    rotate_dataset_single_key df "l_cavity" rotation_from_angle_180_z hcav hcavSF
  obtain ⟨outm, hrotm, hcolsm, hnm, huntm, hmapm⟩ :=
    rotate_dataset_single_key df "l_medial" rotation_from_angle_180_z hmed hmedSF
  refine ⟨?_, ?_, ?_, hdisj⟩
  · intro s hs
    have hsm : s ∉ MEDIAL_FIX_SUBJECTS := hdisj s hs
    refine ⟨outc, ?_, ?_, ?_⟩
    · unfold get_session_df_fixup
      rw [if_pos hs, hrotc]
      show (if s ∈ MEDIAL_FIX_SUBJECTS then
        rotate_dataset outc [("l_medial", some rotation_from_angle_180_z)] else some outc) = _
      rw [if_neg hsm]
    · have hmv : ∀ i c, c.1 = "l_cavity" → c ∈ df.cols →
          outc.val i c = mappedVal df "l_cavity" (some rotation_from_angle_180_z) i c :=
        fun i c hck hcm => hmapc i c hck hcm
      exact rot180z_vals hmv hcavSF
    · intro i c hc
      exact huntc i c hc
  · intro s hs
    have hsc : s ∉ CAVITY_FIX_SUBJECTS := by
      intro hs2
      exact hdisj s hs2 hs
    refine ⟨outm, ?_, ?_, ?_⟩
    · unfold get_session_df_fixup
      rw [if_neg hsc]
      show (if s ∈ MEDIAL_FIX_SUBJECTS then
        rotate_dataset df [("l_medial", some rotation_from_angle_180_z)] else some df) = _
      rw [if_pos hs, hrotm]
    · have hmv : ∀ i c, c.1 = "l_medial" → c ∈ df.cols →
          outm.val i c = mappedVal df "l_medial" (some rotation_from_angle_180_z) i c :=
        fun i c hck hcm => hmapm i c hck hcm
      exact rot180z_vals hmv hmedSF
    · intro i c hc
      exact huntm i c hc
  · intro s hsc hsm
    unfold get_session_df_fixup
    rw [if_neg hsc]
    show (if s ∈ MEDIAL_FIX_SUBJECTS then
      rotate_dataset df [("l_medial", some rotation_from_angle_180_z)] else some df) = _
    rw [if_neg hsm]

/-- Witness for C8 at a concrete table and the subject 8d60. -/
theorem get_session_df_fixup_spec_witness :
    hasSensor exampleDF "l_cavity" = true ∧ hasSFCols exampleDF "l_cavity" = true ∧
    hasSensor exampleDF "l_medial" = true ∧ hasSFCols exampleDF "l_medial" = true ∧
    ((∀ s ∈ CAVITY_FIX_SUBJECTS, ∃ out, get_session_df_fixup s exampleDF = some out ∧
      (∀ i, out.val i ("l_cavity", "acc_x") = - exampleDF.val i ("l_cavity", "acc_x") ∧
        out.val i ("l_cavity", "acc_y") = - exampleDF.val i ("l_cavity", "acc_y") ∧
        out.val i ("l_cavity", "acc_z") = exampleDF.val i ("l_cavity", "acc_z") ∧
        out.val i ("l_cavity", "gyr_x") = - exampleDF.val i ("l_cavity", "gyr_x") ∧
        out.val i ("l_cavity", "gyr_y") = - exampleDF.val i ("l_cavity", "gyr_y") ∧
        out.val i ("l_cavity", "gyr_z") = exampleDF.val i ("l_cavity", "gyr_z")) ∧
      (∀ i c, c.1 ≠ "l_cavity" → out.val i c = exampleDF.val i c)) ∧
    (∀ s ∈ MEDIAL_FIX_SUBJECTS, ∃ out, get_session_df_fixup s exampleDF = some out ∧
      (∀ i, out.val i ("l_medial", "acc_x") = - exampleDF.val i ("l_medial", "acc_x") ∧
        out.val i ("l_medial", "acc_y") = - exampleDF.val i ("l_medial", "acc_y") ∧
        out.val i ("l_medial", "acc_z") = exampleDF.val i ("l_medial", "acc_z") ∧
        out.val i ("l_medial", "gyr_x") = - exampleDF.val i ("l_medial", "gyr_x") ∧
        out.val i ("l_medial", "gyr_y") = - exampleDF.val i ("l_medial", "gyr_y") ∧
        out.val i ("l_medial", "gyr_z") = exampleDF.val i ("l_medial", "gyr_z")) ∧
      (∀ i c, c.1 ≠ "l_medial" → out.val i c = exampleDF.val i c)) ∧
    (∀ s, s ∉ CAVITY_FIX_SUBJECTS → s ∉ MEDIAL_FIX_SUBJECTS →
      get_session_df_fixup s exampleDF = some exampleDF) ∧
    (∀ s ∈ CAVITY_FIX_SUBJECTS, s ∉ MEDIAL_FIX_SUBJECTS)) :=
  ⟨by decide, by decide, by decide, by decide,
    get_session_df_fixup_spec exampleDF (by decide) (by decide) (by decide) (by decide)⟩

/-- Counterexample for C6: a label whose end equals the test stop index is
kept by get_manual_labels_for_test, while the claimed half-open range
[start_idx, stop_idx) would discard it. -/
theorem get_manual_labels_for_test_half_open_cex :
    get_manual_labels_for_test 0 10 [⟨1, 2, 10, "left"⟩] = [⟨1, 2, 10, "left"⟩] ∧
    ¬((0 ≤ (2 : Int) ∧ (2 : Int) < 10) ∧ (0 ≤ (10 : Int) ∧ (10 : Int) < 10)) := by
  constructor
  · decide
  · decide

/-- C6 (amended): scoping the full-session stride labels to one test keeps
exactly the labels whose start is at or after the test start index and whose
end is at or before the test stop index, with both bounds closed, discards all
others, and subtracts the test start index from the boundaries of every
surviving label. -/
theorem get_manual_labels_for_test_keeps_closed_range (a b : Int) (ls : List StrideLabel) :
    (get_manual_labels_for_test a b ls).length =
      ls.countP (fun l => decide (a ≤ l.start) && decide (l.end_ ≤ b)) ∧
    (∀ l ∈ ls, a ≤ l.start → l.end_ ≤ b →
      { l with start := l.start - a, end_ := l.end_ - a } ∈
        get_manual_labels_for_test a b ls) ∧
    (∀ l2 ∈ get_manual_labels_for_test a b ls, ∃ l ∈ ls, a ≤ l.start ∧ l.end_ ≤ b ∧
      l2 = { l with start := l.start - a, end_ := l.end_ - a }) := by
  refine ⟨?_, ?_, ?_⟩
  · rw [get_manual_labels_for_test, List.length_map, List.countP_eq_length_filter]
  · intro l hl h1 h2
    apply List.mem_map.2
    exact ⟨l, List.mem_filter.2 ⟨hl, by simp [h1, h2]⟩, rfl⟩
  · intro l2 hl2
    obtain ⟨l, hlf, rfl⟩ := List.mem_map.1 hl2
    obtain ⟨hl, hp⟩ := List.mem_filter.1 hlf
    simp only [Bool.and_eq_true, decide_eq_true_eq] at hp
    exact ⟨l, hl, hp.1, hp.2, rfl⟩

/-- Witness for the amended C6 at a concrete label list: a label inside the
closed range survives, re-based. -/
theorem get_manual_labels_for_test_keeps_closed_range_witness :
    (⟨1, 2, 9, "left"⟩ : StrideLabel) ∈
      get_manual_labels_for_test 0 10 [⟨1, 2, 9, "left"⟩, ⟨2, 3, 11, "right"⟩] :=
  (get_manual_labels_for_test_keeps_closed_range 0 10
      [⟨1, 2, 9, "left"⟩, ⟨2, 3, 11, "right"⟩]).2.1
    ⟨1, 2, 9, "left"⟩ (by decide) (by decide) (by decide)

/-- Counterexample for C7: with padding 1 s the code adds
int(1 * 204.8) = 204 samples to the scoped bounds, not the exact 204.8, so a
label at (5, 8) in test (0, 100) is re-based to (209, 212) while the claim
demands the non-integer 209.8. -/
theorem mocap_rebased_labels_truncation_cex :
    mocap_rebased_labels 0 100 1 [⟨1, 5, 8, "left"⟩] = [⟨1, 209, 212, "left"⟩] ∧
    ¬(((209 : Int) : ℚ) = 5 - 0 + 1 * SAMPLING_RATE) := by
  have hp : pyInt (((1 : Int) : ℚ) * SAMPLING_RATE) = 204 := by
    rw [pyInt, if_pos (by norm_num [SAMPLING_RATE])]
    norm_num [SAMPLING_RATE]
  constructor
  · rw [mocap_rebased_labels]
    rw [hp]
    decide
  · norm_num [SAMPLING_RATE]

/-- C7 (amended): for every label with full-session bounds (s, e) inside the
closed test bounds and every integer padding p, the scoped label bounds equal
(s - start_idx + int(p * rate), e - start_idx + int(p * rate)), where int is
the Python truncation toward zero; this equals the exact p * rate only when
p * 204.8 is an integer. -/
theorem mocap_rebased_labels_spec (a b p : Int) (ls : List StrideLabel) :
    ∀ l ∈ ls, a ≤ l.start → l.end_ ≤ b →
      { l with start := l.start - a + pyInt ((p : ℚ) * SAMPLING_RATE),
               end_ := l.end_ - a + pyInt ((p : ℚ) * SAMPLING_RATE) } ∈
        mocap_rebased_labels a b p ls := by
  intro l hl h1 h2
  apply List.mem_map.2
  refine ⟨{ l with start := l.start - a, end_ := l.end_ - a }, ?_, rfl⟩
  apply List.mem_map.2
  exact ⟨l, List.mem_filter.2 ⟨hl, by simp [h1, h2]⟩, rfl⟩

/-- Witness for the amended C7 at a concrete label and padding. -/
theorem mocap_rebased_labels_spec_witness :
    ({ s_id := 1, start := 5 - 0 + pyInt (((1 : Int) : ℚ) * SAMPLING_RATE),
       end_ := 8 - 0 + pyInt (((1 : Int) : ℚ) * SAMPLING_RATE), foot := "left" } : StrideLabel) ∈
      mocap_rebased_labels 0 100 1 [⟨1, 5, 8, "left"⟩] :=
  mocap_rebased_labels_spec 0 100 1 [⟨1, 5, 8, "left"⟩] ⟨1, 5, 8, "left"⟩
    (by decide) (by decide) (by decide)

/-- C9: whenever the current selection does not consist of exactly one row,
every data-producing property of the dataset facades fails immediately with
its usage error, and never aggregates rows or silently picks the first one. -/
theorem data_properties_require_single_row {α β : Type}
    (pindex : List String) (index : List (String × String))
    (session_df_of : String → DataFrame) (msession_df_of : String → List (ℚ × α))
    (test_bounds : String → String → ℚ × ℚ) (padding : ℚ)
    (labels_of : String → List StrideLabel) (bounds_idx : String → String → Int × Int)
    (pad_idx : Int) (events_of : String → String → β) (mocap_of : String → String → List α)
    (hp : pindex.length ≠ 1) (hm : index.length ≠ 1) :
    SensorPositionDatasetSegmentation_data pindex session_df_of =
      Except.error "Can only get data for a single participant" ∧
    SensorPositionDatasetMocap_data index msession_df_of test_bounds padding =
      Except.error "Can only get data for a single participant" ∧
    segmented_stride_list_mocap index labels_of bounds_idx pad_idx =
      Except.error "Can only get stride lists single participant" ∧
    mocap_events_prop index events_of =
      Except.error "Can only get stride lists single participant" ∧
    marker_position_prop index mocap_of =
      Except.error "Can only get position for lists single participant" := by
  have hps : is_single pindex = false := by
    rw [is_single, beq_eq_false_iff_ne]
    exact hp
  have hms : is_single index = false := by
    rw [is_single, beq_eq_false_iff_ne]
    exact hm
  refine ⟨?_, ?_, ?_, ?_, ?_⟩
  · rw [SensorPositionDatasetSegmentation_data, hps]
    rfl
  · rw [SensorPositionDatasetMocap_data, hms]
    rfl
  · rw [segmented_stride_list_mocap, hms]
    rfl
  · rw [mocap_events_prop, hms]
    rfl
  · rw [marker_position_prop, hms]
    rfl

/-- Witness for C9 for a two-row and a zero-row selection. -/
theorem data_properties_require_single_row_witness :
    (["a", "b"] : List String).length ≠ 1 ∧
    ([] : List (String × String)).length ≠ 1 ∧
    SensorPositionDatasetSegmentation_data ["a", "b"] (fun _ => exampleDF) =
      Except.error "Can only get data for a single participant" ∧
    SensorPositionDatasetMocap_data ([] : List (String × String))
      (fun _ => ([] : List (ℚ × Unit))) (fun _ _ => (0, 0)) 0 =
      Except.error "Can only get data for a single participant" ∧
    segmented_stride_list_mocap ([] : List (String × String)) (fun _ => [])
      (fun _ _ => (0, 0)) 0 =
      Except.error "Can only get stride lists single participant" ∧
    mocap_events_prop ([] : List (String × String)) (fun _ _ => ()) =
      Except.error "Can only get stride lists single participant" ∧
    marker_position_prop ([] : List (String × String)) (fun _ _ => ([] : List Unit)) =
      Except.error "Can only get position for lists single participant" := by
  have h := @data_properties_require_single_row Unit Unit ["a", "b"]
    ([] : List (String × String)) (fun _ => exampleDF) (fun _ => ([] : List (ℚ × Unit)))
    (fun _ _ => (0, 0)) 0 (fun _ => []) (fun _ _ => (0, 0)) 0 (fun _ _ => ())
    (fun _ _ => ([] : List Unit)) (by decide) (by decide)
  exact ⟨by decide, by decide, h.1, h.2.1, h.2.2.1, h.2.2.2.1, h.2.2.2.2⟩

/-- The sampling rate is positive. -/
lemma SAMPLING_RATE_pos : (0 : ℚ) < SAMPLING_RATE := by
  norm_num [SAMPLING_RATE]

/-- Appending ranges of step one. -/
lemma range1_append (s m n : Nat) :
    List.range' s m ++ List.range' (s + m) n = List.range' s (m + n) := by
  have h := List.range'_append s m n 1
  simp only [one_mul] at h
  rw [h, Nat.add_comm n m]

/-- Snoc form of a range of step one. -/
lemma range1_snoc (s m : Nat) :
    List.range' s (m + 1) = List.range' s m ++ [s + m] := by
  have h := List.range'_append s m 1 1
  simp only [one_mul, List.range'_one] at h
  rw [Nat.add_comm m 1, ← h]

/-- Filtering an initial range by a bounded interval yields a contiguous
range. -/
lemma filter_range_interval (lo hi : Nat) :
    ∀ N : Nat, (List.range N).filter (fun k => decide (lo ≤ k) && decide (k < hi)) =
      List.range' lo (min hi N - lo) := by
  intro N
  induction N with
  | zero => simp
  | succ N ih =>
    rw [List.range_succ, List.filter_append, ih]
    by_cases h1 : lo ≤ N
    · by_cases h2 : N < hi
      · have hkeep : List.filter (fun k => decide (lo ≤ k) && decide (k < hi)) [N] = [N] := by
          simp [h1, h2]
        rw [hkeep]
        rw [show min hi N = N from by omega, show min hi (N + 1) = N + 1 from by omega]
        rw [show N + 1 - lo = (N - lo) + 1 from by omega]
        rw [range1_snoc, Nat.add_sub_cancel' h1]
      · have hdrop : List.filter (fun k => decide (lo ≤ k) && decide (k < hi)) [N] = [] := by
          simp [h2]
        rw [hdrop, List.append_nil]
        rw [show min hi (N + 1) = min hi N from by omega]
    · have hdrop : List.filter (fun k => decide (lo ≤ k) && decide (k < hi)) [N] = [] := by
        simp [h1]
      rw [hdrop, List.append_nil]
      rw [show min hi (N + 1) - lo = min hi N - lo from by omega]

/-- Integer form of the lower window bound on a uniform sample time. -/
lemma time_lower_iff (t0 a : ℚ) (k : Nat) :
    a ≤ t0 + (k : ℚ) / SAMPLING_RATE ↔ (⌈(a - t0) * SAMPLING_RATE⌉).toNat ≤ k := by
  rw [Int.toNat_le, Int.ceil_le]
  push_cast
  constructor
  · intro h
    have h2 : a - t0 ≤ (k : ℚ) / SAMPLING_RATE := by linarith
    exact (le_div_iff₀ SAMPLING_RATE_pos).1 h2
  · intro h
    have h2 : a - t0 ≤ (k : ℚ) / SAMPLING_RATE := (le_div_iff₀ SAMPLING_RATE_pos).2 h
    linarith

/-- Integer form of the upper window bound on a uniform sample time. -/
lemma time_upper_iff (t0 b : ℚ) (k : Nat) :
    t0 + (k : ℚ) / SAMPLING_RATE ≤ b ↔ k < ((⌊(b - t0) * SAMPLING_RATE⌋ + 1)).toNat := by
  rw [Int.lt_toNat, Int.lt_add_one_iff, Int.le_floor]
  push_cast
  constructor
  · intro h
    have h2 : (k : ℚ) / SAMPLING_RATE ≤ b - t0 := by linarith
    exact (div_le_iff₀ SAMPLING_RATE_pos).1 h2
  · intro h
    have h2 := (div_le_iff₀ SAMPLING_RATE_pos).2 h
    linarith

/-- Pandas label slicing of a uniformly sampled session is the contiguous
sample range between the ceiling of the lower bound and the floor of the upper
bound, both expressed in samples. -/
lemma locSlice_uniformSession (t0 a b : ℚ) (N : Nat) :
    locSlice a b (uniformSession t0 N) =
      (List.range' ((⌈(a - t0) * SAMPLING_RATE⌉).toNat)
          (min ((⌊(b - t0) * SAMPLING_RATE⌋ + 1).toNat) N -
            (⌈(a - t0) * SAMPLING_RATE⌉).toNat)).map
        (fun k : Nat => (t0 + (k : ℚ) / SAMPLING_RATE, ())) := by
  rw [locSlice, uniformSession, List.map_filter]
  have hpred : ∀ k ∈ List.range N,
      ((fun r : ℚ × Unit => decide (a ≤ r.1) && decide (r.1 ≤ b)) ∘
        (fun k : Nat => ((t0 + (k : ℚ) / SAMPLING_RATE, ()) : ℚ × Unit))) k =
      (fun k : Nat => decide ((⌈(a - t0) * SAMPLING_RATE⌉).toNat ≤ k) &&
        decide (k < ((⌊(b - t0) * SAMPLING_RATE⌋ + 1)).toNat)) k := by
    intro k _
    simp only [Function.comp]
    rw [decide_eq_decide.2 (time_lower_iff t0 a k), decide_eq_decide.2 (time_upper_iff t0 b k)]
  rw [List.filter_congr hpred, filter_range_interval]

/-- Index of the first element at or past a threshold in a mapped contiguous
range. -/
lemma findIdx_map_range' {β : Type} (f : Nat → β) (q : β → Bool) (th : Nat)
    (hq : ∀ k, q (f k) = true ↔ th ≤ k) :
    ∀ (n s : Nat), s ≤ th → th < s + n →
    ((List.range' s n).map f).findIdx q = th - s := by
  intro n
  induction n with
  | zero =>
    intro s hs hlt
    omega
  | succ n ih =>
    intro s hs hlt
    rw [List.range'_succ, List.map_cons, List.findIdx_cons]
    by_cases hqs : q (f s) = true
    · have hths : th = s := le_antisymm ((hq s).1 hqs) hs
      rw [hqs]
      simp [hths]
    · have hlt2 : s < th := by
        rcases Nat.lt_or_ge s th with hcase | hcase
        · exact hcase
        · exact absurd ((hq s).2 hcase) hqs
      have hqs2 : q (f s) = false := by
        cases hq2 : q (f s)
        · rfl
        · exact absurd hq2 hqs
      rw [hqs2]
      simp only [cond_false]
      rw [ih (s + 1) (by omega) (by omega)]
      omega

/-- Difference of two ceilings a fixed rational apart is within one of that
distance. -/
lemma ceil_sub_ceil_lt (x c : ℚ) : |((⌈x⌉ - ⌈x - c⌉ : Int) : ℚ) - c| < 1 := by
  have h1 : (⌈x⌉ : ℚ) < x + 1 := Int.ceil_lt_add_one x
  have h2 : x ≤ (⌈x⌉ : ℚ) := Int.le_ceil x
  have h3 : (⌈x - c⌉ : ℚ) < x - c + 1 := Int.ceil_lt_add_one _
  have h4 : x - c ≤ (⌈x - c⌉ : ℚ) := Int.le_ceil _
  rw [abs_lt]
  constructor
  · push_cast
    linarith
  · push_cast
    linarith

/-- A contiguous sample sub-range maps to a contiguous infix of the mapped
window. -/
lemma window_infix_aux {β : Type} (f : Nat → β) (lo0 lo1 hi1 hi0 : Nat)
    (h01 : lo0 ≤ lo1) (h11 : lo1 ≤ hi1) (h10 : hi1 ≤ hi0) :
    ((List.range' lo1 (hi1 - lo1)).map f) <:+: ((List.range' lo0 (hi0 - lo0)).map f) := by
  refine ⟨(List.range' lo0 (lo1 - lo0)).map f, (List.range' hi1 (hi0 - hi1)).map f, ?_⟩
  have e1 : List.range' lo0 (lo1 - lo0) ++ List.range' lo1 (hi1 - lo1) =
      List.range' lo0 ((lo1 - lo0) + (hi1 - lo1)) := by
    have h := range1_append lo0 (lo1 - lo0) (hi1 - lo1)
    rwa [show lo0 + (lo1 - lo0) = lo1 from by omega] at h
  have e2 : List.range' lo0 ((lo1 - lo0) + (hi1 - lo1)) ++ List.range' hi1 (hi0 - hi1) =
      List.range' lo0 (((lo1 - lo0) + (hi1 - lo1)) + (hi0 - hi1)) := by
    have h := range1_append lo0 ((lo1 - lo0) + (hi1 - lo1)) (hi0 - hi1)
    rwa [show lo0 + ((lo1 - lo0) + (hi1 - lo1)) = hi1 from by omega] at h
  rw [← List.map_append, ← List.map_append, e1, e2,
    show ((lo1 - lo0) + (hi1 - lo1)) + (hi0 - hi1) = hi0 - lo0 from by omega]

/-- C5 (amended): for a uniformly sampled session and a test window lying
inside it, with positive padding p, the unpadded window is a contiguous infix
of the padded window returned by get_imu_test; the first row of the unpadded
test sits at row position within one sample of p times the sampling rate, and
therefore its re-indexed time value in SensorPositionDatasetMocap.data lies
within one sample period of 0 (the code subtracts the padding, so the true
test start is at time index 0, not at +p). -/
theorem mocap_data_window_alignment (t0 test_start test_stop p : ℚ) (N : Nat)
    (hp : 0 < p)
    (ht0 : t0 ≤ test_start - p)
    (hN : ⌊(test_stop + p - t0) * SAMPLING_RATE⌋ < (N : Int))
    (hne : ⌈(test_start - t0) * SAMPLING_RATE⌉ ≤ ⌊(test_stop - t0) * SAMPLING_RATE⌋) :
    (locSlice test_start test_stop (uniformSession t0 N)) <:+:
      (get_imu_test test_start test_stop p (uniformSession t0 N)) ∧
    |((firstUnpaddedPos test_start
        (get_imu_test test_start test_stop p (uniformSession t0 N)) : ℚ)) -
      p * SAMPLING_RATE| < 1 ∧
    |mocapDataTimeIndex p
        (firstUnpaddedPos test_start
          (get_imu_test test_start test_stop p (uniformSession t0 N)))| <
      1 / SAMPLING_RATE := by
  have hSR := SAMPLING_RATE_pos
  have hc0 : (0 : Int) ≤ ⌈(test_start - p - t0) * SAMPLING_RATE⌉ :=
    Int.ceil_nonneg (mul_nonneg (by linarith) (le_of_lt hSR))
  have hc1 : (0 : Int) ≤ ⌈(test_start - t0) * SAMPLING_RATE⌉ :=
    Int.ceil_nonneg (mul_nonneg (by linarith) (le_of_lt hSR))
  have hcle : ⌈(test_start - p - t0) * SAMPLING_RATE⌉ ≤ ⌈(test_start - t0) * SAMPLING_RATE⌉ :=
    Int.ceil_le_ceil (mul_le_mul_of_nonneg_right (by linarith) (le_of_lt hSR))
  have hfle : ⌊(test_stop - t0) * SAMPLING_RATE⌋ ≤ ⌊(test_stop + p - t0) * SAMPLING_RATE⌋ :=
    Int.floor_le_floor (mul_le_mul_of_nonneg_right (by linarith) (le_of_lt hSR))
  have hW : get_imu_test test_start test_stop p (uniformSession t0 N) =
      (List.range' ((⌈(test_start - p - t0) * SAMPLING_RATE⌉).toNat)
          (((⌊(test_stop + p - t0) * SAMPLING_RATE⌋ + 1).toNat) -
            (⌈(test_start - p - t0) * SAMPLING_RATE⌉).toNat)).map
        (fun k : Nat => (t0 + (k : ℚ) / SAMPLING_RATE, ())) := by
    rw [get_imu_test, locSlice_uniformSession]
    rw [min_eq_left
      (by omega : ((⌊(test_stop + p - t0) * SAMPLING_RATE⌋ + 1).toNat) ≤ N)]
  have hU : locSlice test_start test_stop (uniformSession t0 N) =
      (List.range' ((⌈(test_start - t0) * SAMPLING_RATE⌉).toNat)
          (((⌊(test_stop - t0) * SAMPLING_RATE⌋ + 1).toNat) -
            (⌈(test_start - t0) * SAMPLING_RATE⌉).toNat)).map
        (fun k : Nat => (t0 + (k : ℚ) / SAMPLING_RATE, ())) := by
    rw [locSlice_uniformSession]
    rw [min_eq_left
      (by omega : ((⌊(test_stop - t0) * SAMPLING_RATE⌋ + 1).toNat) ≤ N)]
  have hfind : firstUnpaddedPos test_start
      (get_imu_test test_start test_stop p (uniformSession t0 N)) =
      (⌈(test_start - t0) * SAMPLING_RATE⌉).toNat -
        (⌈(test_start - p - t0) * SAMPLING_RATE⌉).toNat := by
    rw [firstUnpaddedPos, hW]
    exact findIdx_map_range' (fun k : Nat => (t0 + (k : ℚ) / SAMPLING_RATE, ()))
      (fun r => decide (test_start ≤ r.1))
      ((⌈(test_start - t0) * SAMPLING_RATE⌉).toNat)
      (fun k => by rw [decide_eq_true_eq]; exact time_lower_iff t0 test_start k)
      _ _ (by omega) (by omega)
  have hb1 : |((firstUnpaddedPos test_start
      (get_imu_test test_start test_stop p (uniformSession t0 N)) : ℚ)) -
      p * SAMPLING_RATE| < 1 := by
    rw [hfind]
    have hcast : ((((⌈(test_start - t0) * SAMPLING_RATE⌉).toNat -
        (⌈(test_start - p - t0) * SAMPLING_RATE⌉).toNat : Nat)) : ℚ) =
        ((⌈(test_start - t0) * SAMPLING_RATE⌉ -
          ⌈(test_start - p - t0) * SAMPLING_RATE⌉ : Int) : ℚ) := by
      rw [Nat.cast_sub (by omega)]
      rw [← @Int.cast_natCast ℚ _ ((⌈(test_start - t0) * SAMPLING_RATE⌉).toNat),
        ← @Int.cast_natCast ℚ _ ((⌈(test_start - p - t0) * SAMPLING_RATE⌉).toNat)]
      rw [Int.toNat_of_nonneg hc1, Int.toNat_of_nonneg hc0]
      push_cast
      ring
    rw [hcast]
    rw [show (test_start - p - t0) * SAMPLING_RATE =
      (test_start - t0) * SAMPLING_RATE - p * SAMPLING_RATE from by ring]
    exact ceil_sub_ceil_lt ((test_start - t0) * SAMPLING_RATE) (p * SAMPLING_RATE)
  refine ⟨?_, hb1, ?_⟩
  · rw [hW, hU]
    exact window_infix_aux _ _ _ _ _ (by omega) (by omega) (by omega)
  · rw [mocapDataTimeIndex]
    rw [show ((firstUnpaddedPos test_start
        (get_imu_test test_start test_stop p (uniformSession t0 N)) : ℚ)) / SAMPLING_RATE - p =
      (((firstUnpaddedPos test_start
        (get_imu_test test_start test_stop p (uniformSession t0 N)) : ℚ)) -
        p * SAMPLING_RATE) / SAMPLING_RATE from by field_simp; ring]
    rw [abs_div, abs_of_pos hSR]
    exact (div_lt_div_iff_of_pos_right hSR).2 hb1

/-- Counterexample for C5: with test boundaries (5 s, 6 s), padding 1 s, and a
uniform session from time 0, the first row of the unpadded test is row 204 of
the padded window, and its time index in the re-indexed data table is -1/256,
within one sample of 0 but more than one sample away from the claimed +p = +1. -/
theorem mocap_data_offset_not_padding_cex :
    firstUnpaddedPos 5 (get_imu_test 5 6 1 (uniformSession 0 1434)) = 204 ∧
    mocapDataTimeIndex 1 204 = -(1 / 256) ∧
    ¬(|mocapDataTimeIndex 1
        (firstUnpaddedPos 5 (get_imu_test 5 6 1 (uniformSession 0 1434))) - 1| ≤
      1 / SAMPLING_RATE) := by
  have hceil820 : ⌈((5 : ℚ) - 1 - 0) * SAMPLING_RATE⌉ = 820 := by
    rw [show ((5 : ℚ) - 1 - 0) * SAMPLING_RATE = 4096 / 5 from by norm_num [SAMPLING_RATE]]
    rw [Int.ceil_eq_iff] <;> norm_num
  have hceil1024 : ⌈((5 : ℚ) - 0) * SAMPLING_RATE⌉ = 1024 := by
    rw [show ((5 : ℚ) - 0) * SAMPLING_RATE = 1024 from by norm_num [SAMPLING_RATE]]
    rw [Int.ceil_eq_iff] <;> norm_num
  have hfloor1433 : ⌊((6 : ℚ) + 1 - 0) * SAMPLING_RATE⌋ = 1433 := by
    norm_num [SAMPLING_RATE]
  have hW : get_imu_test 5 6 1 (uniformSession 0 1434) =
      (List.range' 820 614).map (fun k : Nat => ((0 : ℚ) + (k : ℚ) / SAMPLING_RATE, ())) := by
    rw [get_imu_test, locSlice_uniformSession, hceil820, hfloor1433]
    rfl
  have hfind : firstUnpaddedPos 5 (get_imu_test 5 6 1 (uniformSession 0 1434)) = 204 := by
    rw [firstUnpaddedPos, hW]
    have h := findIdx_map_range' (fun k : Nat => ((0 : ℚ) + (k : ℚ) / SAMPLING_RATE, ()))
      (fun r => decide ((5 : ℚ) ≤ r.1)) 1024
      (fun k => by
        rw [decide_eq_true_eq]
        have h2 := time_lower_iff 0 5 k
        rw [hceil1024] at h2
        exact h2.trans (by norm_num))
      614 820 (by norm_num) (by norm_num)
    rw [h]
  have hidx : mocapDataTimeIndex 1 204 = -(1 / 256) := by
    norm_num [mocapDataTimeIndex, SAMPLING_RATE]
  refine ⟨hfind, hidx, ?_⟩
  rw [hfind, hidx]
  rw [show (-(1 / 256 : ℚ) - 1) = -(257 / 256) from by norm_num]
  rw [abs_neg, abs_of_pos (by norm_num : (0 : ℚ) < 257 / 256)]
  norm_num [SAMPLING_RATE]

/-- Witness for the amended C5 at the same concrete window. -/
theorem mocap_data_window_alignment_witness :
    (0 : ℚ) < 1 ∧ (0 : ℚ) ≤ 5 - 1 ∧
    ⌊((6 : ℚ) + 1 - 0) * SAMPLING_RATE⌋ < (1434 : Int) ∧
    ⌈((5 : ℚ) - 0) * SAMPLING_RATE⌉ ≤ ⌊((6 : ℚ) - 0) * SAMPLING_RATE⌋ ∧
    ((locSlice 5 6 (uniformSession 0 1434)) <:+:
        (get_imu_test 5 6 1 (uniformSession 0 1434)) ∧
      |((firstUnpaddedPos 5 (get_imu_test 5 6 1 (uniformSession 0 1434)) : ℚ)) -
        1 * SAMPLING_RATE| < 1 ∧
      |mocapDataTimeIndex 1
          (firstUnpaddedPos 5 (get_imu_test 5 6 1 (uniformSession 0 1434)))| <
        1 / SAMPLING_RATE) := by
  have hne : ⌈((5 : ℚ) - 0) * SAMPLING_RATE⌉ ≤ ⌊((6 : ℚ) - 0) * SAMPLING_RATE⌋ := by
    rw [show ((5 : ℚ) - 0) * SAMPLING_RATE = 1024 from by norm_num [SAMPLING_RATE]]
    rw [show ((6 : ℚ) - 0) * SAMPLING_RATE = 6144 / 5 from by norm_num [SAMPLING_RATE]]
    rw [show ⌈(1024 : ℚ)⌉ = 1024 from by rw [Int.ceil_eq_iff] <;> norm_num]
    norm_num
  refine ⟨by norm_num, by norm_num, by norm_num [SAMPLING_RATE], hne, ?_⟩
  exact mocap_data_window_alignment 0 5 6 1 1434 (by norm_num) (by norm_num)
    (by norm_num [SAMPLING_RATE]) hne
